import Mathlib

/-!
Verification of the JobSync applicant-scoring core (scoringAlgorithms.ts,
normalization.ts, rankApplicants.ts), shallowly embedded in Lean.

Modelling conventions:
* JavaScript numbers are modelled as exact rationals (`ℚ`).
* `Math.exp` is transcendental and not representable in `ℚ`; the scoring
  functions that use it (`algorithm2_SkillExperienceComposite`,
  `ensembleScore`, `compareApplicants`) take an explicit parameter
  `jsExp : ℚ → ℚ` standing for `Math.exp`.  All concrete instantiations
  below are made at inputs where the code uses only the quotient
  `jsExp x / jsExp x`, which is independent of the model whenever
  `jsExp x ≠ 0` (as is true of the real exponential).
* Strings are Lean `String`s; the regex-based JavaScript string operations
  are implemented character by character with the same semantics.
* `Math.round x` is `⌊x + 1/2⌋` (ECMA round-half-up for the values reached
  here, which are all non-negative).
-/

set_option maxRecDepth 100000
set_option maxHeartbeats 1000000

unseal Rat.add Rat.mul Rat.inv Rat.sub Rat.ofScientific

/-! ### Basic string utilities (JavaScript semantics) -/

/-- JS `String.prototype.toLowerCase` restricted to the ASCII range used by the data. -/
def jsToLower (s : String) : String := String.mk (s.data.map Char.toLower)

/-- Character-list trim used to model JS `String.prototype.trim`. -/
def trimChars (cs : List Char) : List Char :=
  (((cs.dropWhile Char.isWhitespace).reverse).dropWhile Char.isWhitespace).reverse

/-- JS `String.prototype.trim`. -/
def jsTrim (s : String) : String := String.mk (trimChars s.data)

/-- `\w` of JS regexes: ASCII letters, digits and underscore. -/
def charIsWord (c : Char) : Bool := c.isAlphanum || c = '_'

/-- Case-sensitive "starts with" on character lists. -/
def startsWithChars : List Char → List Char → Bool
  | [], _ => true
  | _ :: _, [] => false
  | a :: xs, b :: ys => a = b && startsWithChars xs ys

/-- Case-insensitive "starts with": the pattern is given lowercase, the text
is lowered character by character. -/
def startsWithCI : List Char → List Char → Bool
  | [], _ => true
  | _ :: _, [] => false
  | a :: xs, b :: ys => a = b.toLower && startsWithCI xs ys

/-- Substring scan for JS `String.prototype.includes`. -/
def hasSubChars (sub : List Char) : List Char → Bool
  | [] => sub.isEmpty
  | c :: rest => startsWithChars sub (c :: rest) || hasSubChars sub rest

/-- JS `hay.includes(sub)`. -/
def jsIncludes (hay sub : String) : Bool := hasSubChars sub.data hay.data

/-- Split a character list on whitespace runs, dropping empty pieces
(models `split(/\s+/)` followed by the length/filter guards that discard
empty tokens in every call site). -/
def splitWsGo : List Char → List Char → List (List Char)
  | [], acc => if acc.isEmpty then [] else [acc.reverse]
  | c :: rest, acc =>
    if c.isWhitespace then
      if acc.isEmpty then splitWsGo rest [] else acc.reverse :: splitWsGo rest []
    else splitWsGo rest (c :: acc)

/-- Collapse whitespace runs to a single space (`replace(/\s+/g, ' ')`).
The boolean records whether the previous character was whitespace. -/
def collapseWsGo : Bool → List Char → List Char
  | _, [] => []
  | prevWs, c :: rest =>
    if c.isWhitespace then
      if prevWs then collapseWsGo true rest else ' ' :: collapseWsGo true rest
    else c :: collapseWsGo false rest

/-- `normalizeSkill` from scoringAlgorithms.ts: lowercase, strip punctuation,
split on whitespace, keep tokens longer than 2 that are not stopwords. -/
def normalizeSkill (skill : String) : List String :=
  let replaced :=
    (skill.data.map Char.toLower).map (fun c => if charIsWord c || c.isWhitespace then c else ' ')
  ((splitWsGo replaced []).map String.mk).filter
    (fun t => t.length > 2 && !(["the", "and", "for", "with"].contains t))

/-! ### Levenshtein distance and string similarity -/

/-- One row-extension step of the dynamic-programming Levenshtein matrix of
`levenshteinDistance` in scoringAlgorithms.ts.  Arguments: the remaining
characters of the second string, the tail of the previous row, the diagonal
entry (previous row, previous column) and the entry to the left (current
row, previous column). -/
def levInner (c : Char) : List Char → List Nat → Nat → Nat → List Nat
  | b :: bs, above :: rest, diag, left =>
    let cost := if c = b then 0 else 1
    let v := min (min (above + 1) (left + 1)) (diag + cost)
    v :: levInner c bs rest above v
  | _, _, _, _ => []

/-- `levenshteinDistance` from scoringAlgorithms.ts (row-by-row DP). -/
def levenshteinDistance (a b : List Char) : Nat :=
  let row0 := List.range (b.length + 1)
  let lastRow := a.foldl
    (fun row c =>
      match row with
      | [] => []
      | d :: rest => (d + 1) :: levInner c b rest d (d + 1))
    row0
  lastRow.getLastD 0

/-- `stringSimilarity` from scoringAlgorithms.ts: lowercase/trim both sides,
100 on equality, 0 when one side is empty, otherwise the clamped
`(maxLen − distance) / maxLen × 100`. -/
def stringSimilarity (str1 str2 : String) : ℚ :=
  let s1 := trimChars (str1.data.map Char.toLower)
  let s2 := trimChars (str2.data.map Char.toLower)
  if s1 = s2 then 100
  else if s1.length = 0 ∨ s2.length = 0 then 0
  else
    let maxLen : ℚ := ((max s1.length s2.length : ℕ) : ℚ)
    let dist : ℚ := ((levenshteinDistance s1 s2 : ℕ) : ℚ)
    max 0 (min 100 ((maxLen - dist) / maxLen * 100))

/-! ### Data model -/

/-- Job-side input record of the scoring engine (scoringAlgorithms.ts
`JobRequirements`). -/
structure JobRequirements where
  title : String
  description : String
  degreeRequirement : String
  eligibilities : List String
  skills : List String
  yearsOfExperience : ℚ
deriving DecidableEq

/-- Applicant-side input record (scoringAlgorithms.ts `ApplicantData`);
`eligibilities` holds the `eligibilityTitle` strings of the original
`{ eligibilityTitle }` records. -/
structure ApplicantData where
  highestEducationalAttainment : String
  eligibilities : List String
  skills : List String
  totalYearsExperience : ℚ
  workExperienceTitles : Option (List String)
deriving DecidableEq

/-- Per-algorithm result record (scoringAlgorithms.ts `ScoreBreakdown`). -/
structure ScoreBreakdown where
  educationScore : ℚ
  experienceScore : ℚ
  skillsScore : ℚ
  eligibilityScore : ℚ
  totalScore : ℚ
  algorithmUsed : String
  reasoning : String
  matchedSkillsCount : ℕ
  matchedEligibilitiesCount : ℕ
deriving DecidableEq

/-! ### Rounding and number formatting -/

/-- JS `Math.round` (round half toward `+∞`). -/
def jsRound (q : ℚ) : ℤ := ⌊q + 1 / 2⌋

/-- `Math.round(q * 100) / 100`, the two-decimal rounding applied to every
`totalScore` (and to the blended ensemble fields). -/
def round2 (q : ℚ) : ℚ := ((jsRound (q * 100) : ℤ) : ℚ) / 100

/-- JS `Number.prototype.toFixed(1)` on the exact rational value. -/
def toFixed1 (q : ℚ) : String :=
  let n := jsRound (q * 10)
  let sign := if n < 0 then "-" else ""
  let m := n.natAbs
  sign ++ toString (m / 10) ++ "." ++ toString (m % 10)

/-- JS `Number.prototype.toFixed(2)` on the exact rational value. -/
def toFixed2 (q : ℚ) : String :=
  let n := jsRound (q * 100)
  let sign := if n < 0 then "-" else ""
  let m := n.natAbs
  let frac := m % 100
  sign ++ toString (m / 100) ++ "." ++ (if frac < 10 then "0" else "") ++ toString frac

/-- `Array.prototype.join(sep)`. -/
def joinSep (sep : String) : List String → String
  | [] => ""
  | x :: xs => xs.foldl (fun acc y => acc ++ sep ++ y) x

/-! ### Degree cleaning and matching -/

/-- Does the list start (after its leading whitespace) with one of the
contaminant markers `Eligibilities:`/`Skills:`/`Experience:`
(case-insensitive)?  Used to locate the leftmost match of
`/\s+(Eligibilities|Skills|Experience):/i`. -/
def contaminantAt (l : List Char) : Bool :=
  let r := l.dropWhile Char.isWhitespace
  startsWithCI "eligibilities:".data r || startsWithCI "skills:".data r ||
    startsWithCI "experience:".data r

/-- Prefix of the list before the first contaminant separator. -/
def cleanScan : List Char → List Char
  | [] => []
  | c :: rest =>
    if c.isWhitespace && contaminantAt (c :: rest) then [] else c :: cleanScan rest

/-- `cleanDegreeRequirement` from scoringAlgorithms.ts:
`degreeReq.split(/\s+(Eligibilities|Skills|Experience):/i)[0].trim()`. -/
def cleanDegreeRequirement (s : String) : String := jsTrim (String.mk (cleanScan s.data))

/-- Capture of `\s+(.+)$` directly after a keyword occurrence: at least one
whitespace character must follow; the capture is the rest after the greedy
whitespace run (backing off to a single whitespace character when nothing
else remains, as the regex engine does). -/
def fieldCapture (tail : List Char) : Option (List Char) :=
  match tail with
  | [] => none
  | c :: _ =>
    if c.isWhitespace then
      let r := tail.dropWhile Char.isWhitespace
      if !r.isEmpty then some r
      else if tail.length ≥ 2 then some [' ']
      else none
    else none

/-- Scan for the leftmost `\b<kw>\s+(.+)$` match (`kw` given lowercase);
the boolean tracks whether the current position sits at a word boundary. -/
def kwScan (kw : List Char) : List Char → Bool → Option (List Char)
  | [], _ => none
  | c :: rest, boundary =>
    if boundary && startsWithCI kw (c :: rest) then
      match fieldCapture ((c :: rest).drop kw.length) with
      | some cap => some cap
      | none => kwScan kw rest (!(charIsWord c))
    else kwScan kw rest (!(charIsWord c))

/-- `extractDegreeField` from scoringAlgorithms.ts: text after `in` (else
after `of`, else the whole string), trimmed. -/
def extractDegreeField (degree : String) : String :=
  match kwScan "in".data degree.data true with
  | some cap => jsTrim (String.mk cap)
  | none =>
    match kwScan "of".data degree.data true with
    | some cap => jsTrim (String.mk cap)
    | none => jsTrim degree

/-- Split on the literal separator `" or "` (case-insensitive on the word),
keeping empty pieces, as `split(/ or /i)` does.  The fuel argument exists
only for structural termination; every step consumes at least one
character, so `length + 1` fuel (see `splitOrList`) never runs out. -/
def splitOrGo : ℕ → List Char → List Char → List (List Char)
  | _, [], acc => [acc.reverse]
  | 0, l, acc => [acc.reverse ++ l]
  | fuel + 1, c :: rest, acc =>
    if startsWithCI " or ".data (c :: rest) then
      acc.reverse :: splitOrGo fuel ((c :: rest).drop 4) []
    else splitOrGo fuel rest (c :: acc)

/-- `s.split(/ or /i)` on a character list. -/
def splitOrList (cs : List Char) : List (List Char) := splitOrGo (cs.length + 1) cs []

/-- The `for (const option of degreeOptions)` loop of
`matchDegreeRequirement`: any alternative whose core field scores ≥ 85
returns 100 immediately, otherwise the maximum similarity is kept. -/
def orOptionLoop (applicantField : String) : List String → ℚ → ℚ
  | [], best => best
  | o :: rest, best =>
    let sim := stringSimilarity (extractDegreeField (jsTrim o)) applicantField
    if sim ≥ 85 then 100 else orOptionLoop applicantField rest (max best sim)

/-- `matchDegreeRequirement` from scoringAlgorithms.ts. -/
def matchDegreeRequirement (jobDegree applicantDegree : String) : ℚ :=
  let cleanedJobDegree := cleanDegreeRequirement jobDegree
  let degreeOptions := (splitOrList cleanedJobDegree.data).map String.mk
  if degreeOptions.length > 1 then
    orOptionLoop (extractDegreeField applicantDegree) degreeOptions 0
  else stringSimilarity cleanedJobDegree applicantDegree

/-! ### Skill matching -/

/-- Inner loop of `calculateSkillMatch`: best tier score of one job skill
against the applicant skills (exact → 100 with early exit, ≥ 80 → 80,
≥ 50 → 50, otherwise the token-overlap score `(common/jobTokens)·30`). -/
def skillBestLoop (jobSkill : String) : List String → ℚ → ℚ
  | [], best => best
  | appSkill :: rest, best =>
    let sim := stringSimilarity jobSkill appSkill
    if sim = 100 then 100
    else if sim ≥ 80 then skillBestLoop jobSkill rest (max best 80)
    else if sim ≥ 50 then skillBestLoop jobSkill rest (max best 50)
    else
      let jobTokens := normalizeSkill jobSkill
      let appTokens := normalizeSkill appSkill
      let commonTokens := jobTokens.filter (fun t => appTokens.contains t)
      if commonTokens.length > 0 then
        skillBestLoop jobSkill rest
          (max best ((commonTokens.length : ℚ) / (jobTokens.length : ℚ) * 30))
      else skillBestLoop jobSkill rest best

/-- `calculateSkillMatch` from scoringAlgorithms.ts; returns
`(score, matchedCount)`.  The source accumulates the per-skill best scores
and the matched counter in one loop; here the same quantities are the sum
of the per-skill bests and the count of skills whose best is ≥ 30. -/
def calculateSkillMatch (jobSkills applicantSkills : List String) : ℚ × ℕ :=
  if jobSkills.isEmpty then (50, 0)
  else if applicantSkills.isEmpty then (0, 0)
  else
    let totalScore := (jobSkills.map (fun js => skillBestLoop js applicantSkills 0)).sum
    let matchedCount := jobSkills.countP (fun js => decide ((30:ℚ) ≤ skillBestLoop js applicantSkills 0))
    let maxScore : ℚ := (jobSkills.length : ℚ) * 100
    let finalScore := totalScore / maxScore * 100
    let bonusSkills := max 0 ((applicantSkills.length : ℚ) - (jobSkills.length : ℚ))
    let bonus := min (bonusSkills * 2) 10
    (min (finalScore + bonus) 100, matchedCount)

/-! ### Experience scoring -/

/-- `job.yearsOfExperience || 1` (JS `||` maps the falsy 0 to 1). -/
def effectiveRequiredYears (job : JobRequirements) : ℚ :=
  if job.yearsOfExperience = 0 then 1 else job.yearsOfExperience

/-- The shared 3-tier years component. -/
def yearsScoreOf (requiredYears applicantYears : ℚ) : ℚ :=
  if applicantYears ≥ requiredYears then 100
  else if applicantYears > 0 then 66.7
  else 33.3

/-- Job-title relevance loop shared by the algorithms.  Algorithms 1 and 2
additionally raise the best match by the token-overlap score
`(common/jobTokens)·80` (`withTokenBoost = true`); Algorithm 3 uses the raw
string similarity only (`withTokenBoost = false`). -/
def titleRelevanceLoop (jobTitleLower : String) (withTokenBoost : Bool) :
    List String → ℚ → ℚ
  | [], best => best
  | expTitle :: rest, best =>
    let sim := stringSimilarity jobTitleLower (jsTrim (jsToLower expTitle))
    let b1 := max best sim
    let b2 :=
      if withTokenBoost then
        let jobTokens := normalizeSkill jobTitleLower
        let expTokens := normalizeSkill (jsToLower expTitle)
        let commonTokens := jobTokens.filter (fun t => expTokens.contains t)
        if commonTokens.length > 0 then
          max b1 ((commonTokens.length : ℚ) / (jobTokens.length : ℚ) * 80)
        else b1
      else b1
    titleRelevanceLoop jobTitleLower withTokenBoost rest b2

/-- Relevance component: neutral 50 unless the job title is non-empty and
work-experience titles are present. -/
def relevanceScoreOf (jobTitle : String) (titles : Option (List String))
    (withTokenBoost : Bool) : ℚ :=
  match titles with
  | some ts =>
    if jobTitle ≠ "" && !ts.isEmpty then
      titleRelevanceLoop (jsTrim (jsToLower jobTitle)) withTokenBoost ts 0
    else 50
  | none => 50

/-- The shared experience score `years·0.7 + relevance·0.3`. -/
def experienceScoreOf (job : JobRequirements) (applicant : ApplicantData)
    (withTokenBoost : Bool) : ℚ :=
  yearsScoreOf (effectiveRequiredYears job) applicant.totalYearsExperience * 0.7 +
    relevanceScoreOf job.title applicant.workExperienceTitles withTokenBoost * 0.3

/-! ### Education scoring -/

def degreeLevels : List String :=
  ["elementary", "secondary", "vocational", "bachelor", "master", "doctoral",
    "graduate studies"]

/-- `degreeLevels.find(level => degree.includes(level))`. -/
def findDegreeLevel (degree : String) : Option String :=
  degreeLevels.find? (fun lvl => jsIncludes degree lvl)

/-- The shared degree-level adjustment: same level → tiered floor (60 when
the base similarity is ≥ 40, else 40); applicant level strictly higher →
`+15` capped at 100; strictly lower → `−20` floored at 30. -/
def degreeLevelAdjust (jobDegree applicantDegree : String) (base : ℚ) : ℚ :=
  match findDegreeLevel jobDegree, findDegreeLevel applicantDegree with
  | some jobLevel, some applicantLevel =>
    let floored :=
      if jobLevel = applicantLevel then
        (if base ≥ 40 then max base 60 else max base 40)
      else base
    let ji := degreeLevels.indexOf jobLevel
    let ai := degreeLevels.indexOf applicantLevel
    if ai > ji then min (floored + 15) 100
    else if ai < ji then max (floored - 20) 30
    else floored
  | _, _ => base

/-- The hand-maintained related-fields table of Algorithm 1. -/
def relatedFieldsTable : List (String × List String) :=
  [("information technology", ["computer science", "software engineering", "information systems"]),
   ("computer science", ["information technology", "software engineering", "computer engineering"]),
   ("civil engineering", ["architecture", "structural engineering", "construction management"]),
   ("nursing", ["midwifery", "health sciences", "medical technology"]),
   ("accounting", ["finance", "business administration"]),
   ("office administration", ["public administration", "business administration", "secretarial"]),
   ("public administration", ["office administration", "business administration", "political science"]),
   ("business administration", ["management", "organizational development"])]

/-- Algorithm 1's related-fields loop: every table row whose field occurs in
the job degree and one of whose related terms occurs in the applicant degree
raises the score to at least 85. -/
def relatedFieldsBoost (jobDegree applicantDegree : String) (base : ℚ) : ℚ :=
  relatedFieldsTable.foldl
    (fun score p =>
      if jsIncludes jobDegree p.1 && p.2.any (fun rf => jsIncludes applicantDegree rf) then
        max score 85
      else score)
    base

/-- Degree match plus level adjustment (education score of Algorithm 3,
which applies neither the related-fields boost nor the final floor). -/
def educationScoreBase (jobDegree applicantDegree : String) : ℚ :=
  degreeLevelAdjust jobDegree applicantDegree
    (matchDegreeRequirement jobDegree applicantDegree)

/-- Education score of Algorithm 1 (related-fields boost, then floor 30). -/
def educationScoreAlg1 (jobDegree applicantDegree : String) : ℚ :=
  max (relatedFieldsBoost jobDegree applicantDegree
    (educationScoreBase jobDegree applicantDegree)) 30

/-- Education score of Algorithm 2 (floor 30, no related-fields boost). -/
def educationScoreAlg2 (jobDegree applicantDegree : String) : ℚ :=
  max (educationScoreBase jobDegree applicantDegree) 30

/-! ### Eligibility scoring -/

/-- `job.eligibilities.map(e => e.toLowerCase().trim())`. -/
def jobEligsOf (job : JobRequirements) : List String :=
  job.eligibilities.map (fun e => jsTrim (jsToLower e))

/-- `applicant.eligibilities.filter(e => e && e.eligibilityTitle).map(...)`:
records with an empty (falsy) title are dropped before lowering/trimming. -/
def appEligsOf (applicant : ApplicantData) : List String :=
  (applicant.eligibilities.filter (fun t => t ≠ "")).map (fun t => jsTrim (jsToLower t))

/-- The guard shared by all three algorithms: at least one requirement line
and no line containing `none` or `not required`. -/
def eligRequired (jobEligs : List String) : Bool :=
  !jobEligs.isEmpty &&
    !(jobEligs.any (fun e => jsIncludes e "none" || jsIncludes e "not required"))

/-- Tier value of one applicant eligibility against one required line:
similarity ≥ 70 kept, in `[40,70)` scaled by 0.7, otherwise (in Algorithms
1 and 2 only, `withTokenTier = true`) the token-overlap score
`(common/reqTokens)·40`.  Algorithm 3 has no token tier. -/
def eligTier (withTokenTier : Bool) (reqElig appElig : String) : ℚ :=
  let sim := stringSimilarity reqElig appElig
  if sim ≥ 70 then sim
  else if sim ≥ 40 then sim * 0.7
  else if withTokenTier then
    let reqTokens := normalizeSkill reqElig
    let appTokens := normalizeSkill appElig
    let commonTokens := reqTokens.filter (fun t => appTokens.contains t)
    if commonTokens.length > 0 then
      (commonTokens.length : ℚ) / (reqTokens.length : ℚ) * 40
    else 0
  else 0

/-- Inner loop per requirement line: the running `(bestMatch,
bestMatchingAppElig)` pair, updated on strict improvement exactly as the
source loop does (a tier value of 0 never updates, so the uniform
formulation coincides with the source's branch structure). -/
def eligBestPair (withTokenTier : Bool) (reqElig : String) (appEligs : List String) :
    ℚ × String :=
  appEligs.foldl
    (fun acc appElig =>
      let v := eligTier withTokenTier reqElig appElig
      if v > acc.1 then (v, appElig) else acc)
    (0, "")

/-- First-occurrence deduplication; models the JS `Set` of matched
applicant eligibility strings (its size is the number of distinct inserted
strings). -/
def dedupGo (seen : List String) : List String → List String
  | [] => []
  | x :: xs => if seen.contains x then dedupGo seen xs else x :: dedupGo (x :: seen) xs

/-- Distinct applicant eligibilities that won a best-match slot (the JS
truthiness guard drops an empty-string winner). -/
def uniqueMatchedElig (withTokenTier : Bool) (jobEligs appEligs : List String) :
    List String :=
  dedupGo [] (jobEligs.filterMap (fun r =>
    let w := (eligBestPair withTokenTier r appEligs).2
    if w = "" then none else some w))

/-- The proportional eligibility score
`matchRatio·60 + avgSimilarity·0.4` with its matched count. -/
def eligProportional (withTokenTier : Bool) (jobEligs appEligs : List String) :
    ℚ × ℕ :=
  let totalScore := (jobEligs.map (fun r => (eligBestPair withTokenTier r appEligs).1)).sum
  let matchedCount := (uniqueMatchedElig withTokenTier jobEligs appEligs).length
  ((matchedCount : ℚ) / (jobEligs.length : ℚ) * 60 +
      totalScore / (jobEligs.length : ℚ) * 0.4,
    matchedCount)

/-- Eligibility score of Algorithms 1 and 2 (identical blocks in the
source): proportional score, surplus bonus `min((surplus)·5, 15)` capped at
100, floored at 40 when a match was found, else capped at 25; neutral
`(50, 0)` when no requirement applies. -/
def eligScoreAlg12 (jobEligs appEligs : List String) : ℚ × ℕ :=
  if eligRequired jobEligs then
    let p := eligProportional true jobEligs appEligs
    let bonusElig := max 0 ((appEligs.length : ℚ) - (jobEligs.length : ℚ))
    let bonus := min (bonusElig * 5) 15
    let capped := min (p.1 + bonus) 100
    (if p.2 > 0 then max capped 40 else min capped 25, p.2)
  else (50, 0)

/-- Eligibility score of Algorithm 3: the bare proportional score — no
token tier, no surplus bonus, no floor/cap; neutral `(50, 0)` when no
requirement applies. -/
def eligScoreAlg3 (jobEligs appEligs : List String) : ℚ × ℕ :=
  if eligRequired jobEligs then eligProportional false jobEligs appEligs
  else (50, 0)

/-! ### The three scoring algorithms -/

/-- The `weights` object of Algorithm 1:
`(education, experience, skills, eligibility)`. -/
def alg1Weights : ℚ × ℚ × ℚ × ℚ := (0.30, 0.20, 0.20, 0.30)

/-- `algorithm1_WeightedSum` from scoringAlgorithms.ts. -/
def algorithm1_WeightedSum (job : JobRequirements) (applicant : ApplicantData) :
    ScoreBreakdown :=
  let jobDegree := jsTrim (jsToLower job.degreeRequirement)
  let applicantDegree := jsTrim (jsToLower applicant.highestEducationalAttainment)
  let educationScore := educationScoreAlg1 jobDegree applicantDegree
  let experienceScore := experienceScoreOf job applicant true
  let skillsMatch := calculateSkillMatch job.skills applicant.skills
  let eligPair := eligScoreAlg12 (jobEligsOf job) (appEligsOf applicant)
  let totalScore :=
    alg1Weights.1 * educationScore + alg1Weights.2.1 * experienceScore +
      alg1Weights.2.2.1 * skillsMatch.1 + alg1Weights.2.2.2 * eligPair.1
  { educationScore := educationScore
    experienceScore := experienceScore
    skillsScore := skillsMatch.1
    eligibilityScore := eligPair.1
    totalScore := round2 totalScore
    algorithmUsed := "Weighted Sum Model"
    reasoning :=
      "Education (30%): " ++ toFixed1 educationScore ++
        ", Experience (20%): " ++ toFixed1 experienceScore ++
        ", Skills (20%): " ++ toFixed1 skillsMatch.1 ++
        ", Eligibility (30%): " ++ toFixed1 eligPair.1
    matchedSkillsCount := skillsMatch.2
    matchedEligibilitiesCount := eligPair.2 }

/-- `algorithm2_SkillExperienceComposite` from scoringAlgorithms.ts.
`jsExp` models `Math.exp`. -/
def algorithm2_SkillExperienceComposite (jsExp : ℚ → ℚ) (job : JobRequirements)
    (applicant : ApplicantData) : ScoreBreakdown :=
  let skillsMatch := calculateSkillMatch job.skills applicant.skills
  let requiredYears := effectiveRequiredYears job
  let adequacy := applicant.totalYearsExperience / requiredYears
  let experienceScore := experienceScoreOf job applicant true
  let beta : ℚ := 0.5
  let composite := skillsMatch.1 * jsExp (beta * min adequacy 2) / jsExp (beta * 2)
  let jobDegree := jsTrim (jsToLower job.degreeRequirement)
  let applicantDegree := jsTrim (jsToLower applicant.highestEducationalAttainment)
  let educationScore := educationScoreAlg2 jobDegree applicantDegree
  let eligPair := eligScoreAlg12 (jobEligsOf job) (appEligsOf applicant)
  let totalScore := 0.30 * composite + 0.35 * educationScore + 0.35 * eligPair.1
  { educationScore := educationScore
    experienceScore := experienceScore
    skillsScore := skillsMatch.1
    eligibilityScore := eligPair.1
    totalScore := round2 totalScore
    algorithmUsed := "Skill-Experience Composite"
    reasoning :=
      "Skill-Experience Composite (30%): " ++ toFixed1 composite ++
        ", Education (35%): " ++ toFixed1 educationScore ++
        ", Eligibility (35%): " ++ toFixed1 eligPair.1
    matchedSkillsCount := skillsMatch.2
    matchedEligibilitiesCount := eligPair.2 }

/-- `algorithm3_EligibilityEducationTiebreaker` from scoringAlgorithms.ts. -/
def algorithm3_EligibilityEducationTiebreaker (job : JobRequirements)
    (applicant : ApplicantData) : ScoreBreakdown :=
  let jobEligs := jobEligsOf job
  let appEligs := appEligsOf applicant
  let eligPair := eligScoreAlg3 jobEligs appEligs
  let eligReq := eligRequired jobEligs
  let eligContribution := if eligReq then eligPair.1 / 100 * 40 else 20
  let eligReason :=
    if eligReq then
      "Professional license match: " ++ toFixed1 eligPair.1 ++ "% (+" ++
        toFixed1 eligContribution ++ ")"
    else "No license required (+20)"
  let jobDegree := jsTrim (jsToLower job.degreeRequirement)
  let applicantDegree := jsTrim (jsToLower applicant.highestEducationalAttainment)
  let educationScore := educationScoreBase jobDegree applicantDegree
  let eduContribution := educationScore / 100 * 30
  let eduReason :=
    "Degree match: " ++ toFixed1 educationScore ++ "% (+" ++ toFixed1 eduContribution ++ ")"
  let requiredYears := effectiveRequiredYears job
  let experienceScore := experienceScoreOf job applicant false
  let excessYears := max 0 (applicant.totalYearsExperience - requiredYears)
  let experienceBonus := min (experienceScore / 100 * 20) 20
  let expReason :=
    "Experience: " ++ toFixed1 experienceScore ++ "%, " ++ toFixed1 excessYears ++
      " years over (+" ++ toFixed1 experienceBonus ++ ")"
  let skillsMatch := calculateSkillMatch job.skills applicant.skills
  let skillBonus := min ((skillsMatch.2 : ℚ) * 10) 20
  let skillReason :=
    toString skillsMatch.2 ++ " matched skills (+" ++ toFixed1 (skillBonus * 0.10) ++ ")"
  let totalScore := eligContribution + eduContribution + experienceBonus + skillBonus * 0.10
  { educationScore := educationScore
    experienceScore := experienceScore
    skillsScore := skillsMatch.1
    eligibilityScore := eligPair.1
    totalScore := round2 totalScore
    algorithmUsed := "Eligibility-Education Tie-breaker"
    reasoning := joinSep "; " [eligReason, eduReason, expReason, skillReason]
    matchedSkillsCount := skillsMatch.2
    matchedEligibilitiesCount := eligPair.2 }

/-! ### Ensemble and direct comparison -/

/-- Reasoning text of the ensemble tie-breaker branch. -/
def tieBreakerNote (t1 t2 : ℚ) (innerReasoning : String) : String :=
  "Algorithms 1 & 2 within 5% (" ++ toFixed1 t1 ++ " vs " ++ toFixed1 t2 ++
    "). Tie-breaker: " ++ innerReasoning

/-- Reasoning text of the ensemble weighted branch (strength/gap
narrative built from the blended, pre-rounding component scores). -/
def blendNarrative (educationScore experienceScore skillsScore eligibilityScore : ℚ) :
    String :=
  let strengths :=
    (if educationScore ≥ 80 then ["strong educational background"] else []) ++
    (if experienceScore ≥ 80 then
      [if experienceScore = 100 then "excellent relevant experience" else "solid work experience"]
     else []) ++
    (if skillsScore ≥ 60 then ["good technical skills"] else []) ++
    (if eligibilityScore ≥ 80 then ["appropriate certifications"] else [])
  let gaps :=
    (if educationScore < 60 then ["education level"] else []) ++
    (if experienceScore < 60 then ["years of experience"] else []) ++
    (if skillsScore < 40 then ["required skills"] else []) ++
    (if eligibilityScore < 60 then ["certifications"] else [])
  let base :=
    if strengths.isEmpty then "" else "Candidate demonstrates " ++ joinSep ", " strengths ++ "."
  let withGaps :=
    if gaps.isEmpty then base
    else
      base ++ " " ++
        (if !strengths.isEmpty then "Areas for development include" else "Needs improvement in") ++
        " " ++ joinSep ", " gaps ++ "."
  let result :=
    if withGaps = "" then "Candidate evaluated across multiple qualification criteria."
    else withGaps
  jsTrim result

/-- `ensembleScore` from scoringAlgorithms.ts: Algorithm 3 relabelled when
Algorithms 1 and 2 land within 5 points, otherwise the two-decimal-rounded
0.6/0.4 blend of the two base algorithms. -/
def ensembleScore (jsExp : ℚ → ℚ) (job : JobRequirements) (applicant : ApplicantData) :
    ScoreBreakdown :=
  let score1 := algorithm1_WeightedSum job applicant
  let score2 := algorithm2_SkillExperienceComposite jsExp job applicant
  let scoreDiff := |score1.totalScore - score2.totalScore|
  if scoreDiff ≤ 5 then
    let score3 := algorithm3_EligibilityEducationTiebreaker job applicant
    { score3 with
        algorithmUsed := "Ensemble (Tie-breaker)"
        reasoning := tieBreakerNote score1.totalScore score2.totalScore score3.reasoning }
  else
    let educationScore := score1.educationScore * 0.6 + score2.educationScore * 0.4
    let experienceScore := score1.experienceScore * 0.6 + score2.experienceScore * 0.4
    let skillsScore := score1.skillsScore * 0.6 + score2.skillsScore * 0.4
    let eligibilityScore := score1.eligibilityScore * 0.6 + score2.eligibilityScore * 0.4
    let totalScore := score1.totalScore * 0.6 + score2.totalScore * 0.4
    { educationScore := round2 educationScore
      experienceScore := round2 experienceScore
      skillsScore := round2 skillsScore
      eligibilityScore := round2 eligibilityScore
      totalScore := round2 totalScore
      algorithmUsed := "Multi-Factor Assessment"
      reasoning := blendNarrative educationScore experienceScore skillsScore eligibilityScore
      matchedSkillsCount := score1.matchedSkillsCount
      matchedEligibilitiesCount := score1.matchedEligibilitiesCount }

/-- Result record of `compareApplicants` (rankApplicants.ts). -/
structure ComparisonResult where
  winner : String
  applicant1Score : ScoreBreakdown
  applicant2Score : ScoreBreakdown
  analysis : String
deriving DecidableEq

/-- `compareApplicants` from rankApplicants.ts: ensemble-scores both
applicants; `tie` when the totals differ by less than one point, otherwise
the higher total wins. -/
def compareApplicants (jsExp : ℚ → ℚ) (job : JobRequirements)
    (applicant1 applicant2 : ApplicantData) : ComparisonResult :=
  let score1 := ensembleScore jsExp job applicant1
  let score2 := ensembleScore jsExp job applicant2
  let diff := score1.totalScore - score2.totalScore
  let winner := if |diff| < 1 then "tie" else if diff > 0 then "applicant1" else "applicant2"
  { winner := winner
    applicant1Score := score1
    applicant2Score := score2
    analysis :=
      "Applicant 1: " ++ toFixed2 score1.totalScore ++ " vs Applicant 2: " ++
        toFixed2 score2.totalScore ++ ". Difference: " ++ toFixed2 |diff| ++ " points." }

/-! ### Deterministic sort and rank assignment (rankApplicants.ts) -/

/-- The fields of a scored applicant that the deterministic comparator in
`rankApplicantsForJob` reads (ensemble scores, raw years, raw skill list). -/
structure SortEntry where
  totalScore : ℚ
  eligibilityScore : ℚ
  educationScore : ℚ
  experienceScore : ℚ
  skillsScore : ℚ
  totalYearsExperience : ℚ
  skills : List String
deriving DecidableEq

/-- The JS comparator of the deterministic sort: each score key is decisive
only when the two values differ by at least 0.01; then raw years, then raw
skill count, then 0 (stable). -/
def applicantCmp (a b : SortEntry) : ℚ :=
  if |b.totalScore - a.totalScore| ≥ 0.01 then b.totalScore - a.totalScore
  else if |b.eligibilityScore - a.eligibilityScore| ≥ 0.01 then
    b.eligibilityScore - a.eligibilityScore
  else if |b.educationScore - a.educationScore| ≥ 0.01 then
    b.educationScore - a.educationScore
  else if |b.experienceScore - a.experienceScore| ≥ 0.01 then
    b.experienceScore - a.experienceScore
  else if |b.skillsScore - a.skillsScore| ≥ 0.01 then b.skillsScore - a.skillsScore
  else if b.totalYearsExperience ≠ a.totalYearsExperience then
    b.totalYearsExperience - a.totalYearsExperience
  else if b.skills.length ≠ a.skills.length then
    (b.skills.length : ℚ) - (a.skills.length : ℚ)
  else 0

/-- Stable insertion respecting a JS comparator (`x` placed before the first
element `y` with `cmp x y < 0`; elements comparing equal keep their
original relative order). -/
def insertByCmp {α : Type} (cmp : α → α → ℚ) (x : α) : List α → List α
  | [] => [x]
  | y :: ys => if cmp x y < 0 then x :: y :: ys else y :: insertByCmp cmp x ys

/-- Stable sort by a JS comparator, modelling `Array.prototype.sort`
(specified stable since ES2019). -/
def stableSortByCmp {α : Type} (cmp : α → α → ℚ) (l : List α) : List α :=
  l.foldl (fun acc x => insertByCmp cmp x acc) []

/-- The deterministic sort of `rankApplicantsForJob`. -/
def sortApplicants (l : List SortEntry) : List SortEntry :=
  stableSortByCmp applicantCmp l

/-- Dense 1-based rank assignment by sorted position
(`rank: index + 1` in `rankApplicantsForJob`). -/
def assignRanks {α : Type} (l : List α) : List (α × ℕ) :=
  l.enum.map (fun p => (p.2, p.1 + 1))

/-- Sign of a comparator value, for relating the numeric comparator to the
specified ordering cascade. -/
def qSign (q : ℚ) : Ordering :=
  if q < 0 then .lt else if q = 0 then .eq else .gt

/-- The sort cascade exactly as the specification words it: descending by
`totalScore` with values closer than 0.01 treated as equal and falling
through to eligibility, education, experience, skills, raw years, raw
skill-list length, and finally stable original order (`.eq`).
`.lt` means the first entry sorts before the second. -/
def cmpCascadeSpec (a b : SortEntry) : Ordering :=
  if |a.totalScore - b.totalScore| < 0.01 then
    if |a.eligibilityScore - b.eligibilityScore| < 0.01 then
      if |a.educationScore - b.educationScore| < 0.01 then
        if |a.experienceScore - b.experienceScore| < 0.01 then
          if |a.skillsScore - b.skillsScore| < 0.01 then
            if a.totalYearsExperience = b.totalYearsExperience then
              if a.skills.length = b.skills.length then .eq
              else if b.skills.length < a.skills.length then .lt else .gt
            else if b.totalYearsExperience < a.totalYearsExperience then .lt else .gt
          else if b.skillsScore < a.skillsScore then .lt else .gt
        else if b.experienceScore < a.experienceScore then .lt else .gt
      else if b.educationScore < a.educationScore then .lt else .gt
    else if b.eligibilityScore < a.eligibilityScore then .lt else .gt
  else if b.totalScore < a.totalScore then .lt else .gt

/-! ### Degree / eligibility normalization (normalization.ts) -/

/-- Canonical degree entry of the degrees dictionary. -/
structure CanonicalDegree where
  key : String
  canonical : String
  level : Option String
  fieldGroup : Option String
  aliases : List String
deriving DecidableEq

/-- Canonical eligibility entry of the eligibilities dictionary. -/
structure CanonicalEligibility where
  key : String
  canonical : String
  category : Option String
  aliases : List String
deriving DecidableEq

/-- `NormalizationResult.method` (`'dictionary' | 'gemini' | 'fallback'`). -/
inductive NormMethod where
  | dictionary
  | gemini
  | fallback
deriving DecidableEq

/-- `NormalizationResult` of normalization.ts. -/
structure NormalizationResult where
  canonicalKey : Option String
  method : NormMethod
  confidence : ℚ
  raw : String
deriving DecidableEq

/-- Parsed JSON reply of the classification call
(`{canonical_key, confidence?}`; the reasoning field is never read). -/
structure GeminiClassification where
  canonicalKey : String
  confidence : Option ℚ
deriving DecidableEq

/-- The in-memory dictionary state after `ensureDictionariesLoaded`:
`Map` lookup is first-binding lookup, `Map.values()` is the list order. -/
structure DictState where
  degreesByKey : List CanonicalDegree
  degreeAliasIndex : List (String × CanonicalDegree)
  eligibilitiesByKey : List CanonicalEligibility
  eligibilityAliasIndex : List (String × CanonicalEligibility)

/-- Modelled from the spec: the external text-generation call
(`generateContent`, client.ts, not among the sources) composed with the
strict JSON parse (`parseGeminiJSON`).  `Except.error` stands for any
thrown failure of either step; the `try`/`catch` in the callers maps it to
the fallback result. -/
abbrev GeminiOracle := String → Except Unit GeminiClassification

/-- `normalizeKey` from normalization.ts: lowercase, trim, punctuation to
spaces, whitespace runs collapsed (note that leading/trailing spaces
produced by the punctuation replacement are kept, as in the source). -/
def normalizeKey (raw : String) : String :=
  String.mk (collapseWsGo false
    ((jsTrim (jsToLower raw)).data.map (fun c => if charIsWord c || c.isWhitespace then c else ' ')))

/-- First-binding lookup in an alias index (JS `Map.get`). -/
def lookupAlias {α : Type} (idx : List (String × α)) (k : String) : Option α :=
  (idx.find? (fun p => p.1 == k)).map Prod.snd

/-- Tokenizer of `basicTokenSimilarity`: lowercase, punctuation to spaces,
whitespace split, empty tokens dropped (`filter(Boolean)`). -/
def tokenizeBasic (s : String) : List String :=
  (splitWsGo
    ((s.data.map Char.toLower).map (fun c => if charIsWord c || c.isWhitespace then c else ' '))
    []).map String.mk

/-- `basicTokenSimilarity` from normalization.ts: Jaccard similarity of the
two token sets (0 when either set is empty). -/
def basicTokenSimilarity (a b : String) : ℚ :=
  let aTokens := dedupGo [] (tokenizeBasic a)
  let bTokens := dedupGo [] (tokenizeBasic b)
  if aTokens.isEmpty || bTokens.isEmpty then 0
  else
    let inter := (aTokens.filter (fun t => bTokens.contains t)).length
    let union := aTokens.length + bTokens.length - inter
    if union = 0 then 0 else (inter : ℚ) / (union : ℚ)

/-- `getTopDegreeCandidates`: all canonical degrees with positive token
similarity, sorted descending by score (stable JS sort), first `limit`. -/
def getTopDegreeCandidates (st : DictState) (raw : String) (limit : ℕ) :
    List CanonicalDegree :=
  if st.degreesByKey.isEmpty then []
  else
    let scored := st.degreesByKey.filterMap (fun d =>
      let score := basicTokenSimilarity raw d.canonical
      if score ≤ 0 then none else some (d, score))
    ((stableSortByCmp (fun x y => y.2 - x.2) scored).take limit).map Prod.fst

/-- `getTopEligibilityCandidates`, same construction. -/
def getTopEligibilityCandidates (st : DictState) (raw : String) (limit : ℕ) :
    List CanonicalEligibility :=
  if st.eligibilitiesByKey.isEmpty then []
  else
    let scored := st.eligibilitiesByKey.filterMap (fun e =>
      let score := basicTokenSimilarity raw e.canonical
      if score ≤ 0 then none else some (e, score))
    ((stableSortByCmp (fun x y => y.2 - x.2) scored).take limit).map Prod.fst

/-- Lowercase hexadecimal digit, for the `\u00XX` escapes of
`JSON.stringify`'s string quoting. -/
def hexDigitChar (n : ℕ) : String :=
  if n < 10 then String.singleton (Char.ofNat (48 + n))
  else String.singleton (Char.ofNat (87 + n))

/-- One character of `JSON.stringify`'s QuoteJSONString: quote and
backslash escaped, the named control escapes, every other control
character as `\u00XX` in lowercase hex, everything else verbatim. -/
def jsonEscapeChar (c : Char) : String :=
  if c = '"' then "\\\""
  else if c = '\\' then "\\\\"
  else if c.toNat = 8 then "\\b"
  else if c.toNat = 9 then "\\t"
  else if c.toNat = 10 then "\\n"
  else if c.toNat = 12 then "\\f"
  else if c.toNat = 13 then "\\r"
  else if c.toNat < 32 then
    "\\u00" ++ hexDigitChar (c.toNat / 16) ++ hexDigitChar (c.toNat % 16)
  else String.singleton c

/-- `JSON.stringify` of a string value. -/
def jsonQuote (s : String) : String :=
  "\"" ++ String.join (s.data.map jsonEscapeChar) ++ "\""

/-- `JSON.stringify` of a string-or-null value (`c.level ?? null`). -/
def jsonStringOrNull : Option String → String
  | none => "null"
  | some s => jsonQuote s

/-- One element of `buildDegreeClassificationPrompt`'s `options` array —
key, canonical, `level: c.level ?? null`, `field_group: c.fieldGroup ??
null` — exactly as `JSON.stringify(options, null, 2)` prints an object
sitting at array depth: members indented four spaces, closing brace two. -/
def degreeOptionJson (c : CanonicalDegree) : String :=
  "\x7b\n    \"key\": " ++ jsonQuote c.key ++
    ",\n    \"canonical\": " ++ jsonQuote c.canonical ++
    ",\n    \"level\": " ++ jsonStringOrNull c.level ++
    ",\n    \"field_group\": " ++ jsonStringOrNull c.fieldGroup ++ "\n  \x7d"

/-- One element of `buildEligibilityClassificationPrompt`'s `options`
array: key, canonical, `category: c.category ?? null`, printed as in
`degreeOptionJson`. -/
def eligibilityOptionJson (c : CanonicalEligibility) : String :=
  "\x7b\n    \"key\": " ++ jsonQuote c.key ++
    ",\n    \"canonical\": " ++ jsonQuote c.canonical ++
    ",\n    \"category\": " ++ jsonStringOrNull c.category ++ "\n  \x7d"

/-- `JSON.stringify(options, null, 2)` at the array level: `[]` when
empty, otherwise each serialized element on its own line indented two
spaces. -/
def jsonArrayIndent2 : List String → String
  | [] => "[]"
  | x :: xs => "[\n  " ++ joinSep ",\n  " (x :: xs) ++ "\n]"

/-- `buildDegreeClassificationPrompt` from normalization.ts: the full
template-literal prompt, with the candidate objects serialized via
`JSON.stringify(options, null, 2)` and the raw degree interpolated
between plain double quotes. -/
def buildDegreeClassificationPrompt (rawDegree : String)
    (candidates : List CanonicalDegree) : String :=
  "\nYou are part of an HR system for Philippine government jobs.\n" ++
    "Your task is to NORMALIZE an applicant's degree name to one of the canonical degrees provided.\n" ++
    "\nThe system has the following canonical degree options (JSON):\n\n" ++
    jsonArrayIndent2 (candidates.map degreeOptionJson) ++
    "\n\nGiven this raw applicant degree string:\n\n\"" ++ rawDegree ++ "\"\n" ++
    "\nChoose the SINGLE best canonical degree key from the list above.\n" ++
    "If you are not reasonably sure, choose \"UNKNOWN\".\n" ++
    "\nRespond ONLY in this exact JSON format:\n\n" ++
    "\x7b\n  \"canonical_key\": \"<one of the keys from the list OR 'UNKNOWN'>\",\n" ++
    "  \"confidence\": <number between 0 and 1>,\n" ++
    "  \"reasoning\": \"<short explanation in 1-2 sentences>\"\n\x7d\n"

/-- `buildEligibilityClassificationPrompt` from normalization.ts, the
eligibility counterpart of `buildDegreeClassificationPrompt`. -/
def buildEligibilityClassificationPrompt (rawEligibility : String)
    (candidates : List CanonicalEligibility) : String :=
  "\nYou are part of an HR system for Philippine government jobs.\n" ++
    "Your task is to NORMALIZE an applicant's eligibility or license name to one of the canonical eligibilities provided.\n" ++
    "\nThe system has the following canonical eligibility options (JSON):\n\n" ++
    jsonArrayIndent2 (candidates.map eligibilityOptionJson) ++
    "\n\nGiven this raw applicant eligibility string:\n\n\"" ++ rawEligibility ++ "\"\n" ++
    "\nChoose the SINGLE best canonical eligibility key from the list above.\n" ++
    "If you are not reasonably sure, choose \"UNKNOWN\".\n" ++
    "\nRespond ONLY in this exact JSON format:\n\n" ++
    "\x7b\n  \"canonical_key\": \"<one of the keys from the list OR 'UNKNOWN'>\",\n" ++
    "  \"confidence\": <number between 0 and 1>,\n" ++
    "  \"reasoning\": \"<short explanation in 1-2 sentences>\"\n\x7d\n"

/-- `normalizeDegreeValue` from normalization.ts: blank input → fallback;
alias-index hit → dictionary with confidence 1; no candidates → fallback;
then the external classification with `UNKNOWN`/unknown-key/failure
handling exactly as in the source. -/
def normalizeDegreeValue (st : DictState) (gemini : GeminiOracle) (rawDegree : String) :
    NormalizationResult :=
  if rawDegree = "" || jsTrim rawDegree = "" then
    { canonicalKey := none, method := .fallback, confidence := 0, raw := rawDegree }
  else
    match lookupAlias st.degreeAliasIndex (normalizeKey rawDegree) with
    | some hit =>
      { canonicalKey := some hit.key, method := .dictionary, confidence := 1, raw := rawDegree }
    | none =>
      let candidates := getTopDegreeCandidates st rawDegree 20
      if candidates.isEmpty then
        { canonicalKey := none, method := .fallback, confidence := 0, raw := rawDegree }
      else
        match gemini (buildDegreeClassificationPrompt rawDegree candidates) with
        | .error _ =>
          { canonicalKey := none, method := .fallback, confidence := 0, raw := rawDegree }
        | .ok parsed =>
          if parsed.canonicalKey = "" || parsed.canonicalKey = "UNKNOWN" then
            { canonicalKey := none, method := .gemini,
              confidence := parsed.confidence.getD 0.3, raw := rawDegree }
          else
            match st.degreesByKey.find? (fun d => d.key == parsed.canonicalKey) with
            | none =>
              { canonicalKey := none, method := .gemini,
                confidence := parsed.confidence.getD 0.2, raw := rawDegree }
            | some _ =>
              { canonicalKey := some parsed.canonicalKey, method := .gemini,
                confidence := parsed.confidence.getD 0.8, raw := rawDegree }

/-- `normalizeEligibilityValue` from normalization.ts (same shape as the
degree version over the eligibility dictionary). -/
def normalizeEligibilityValue (st : DictState) (gemini : GeminiOracle)
    (rawEligibility : String) : NormalizationResult :=
  if rawEligibility = "" || jsTrim rawEligibility = "" then
    { canonicalKey := none, method := .fallback, confidence := 0, raw := rawEligibility }
  else
    match lookupAlias st.eligibilityAliasIndex (normalizeKey rawEligibility) with
    | some hit =>
      { canonicalKey := some hit.key, method := .dictionary, confidence := 1,
        raw := rawEligibility }
    | none =>
      let candidates := getTopEligibilityCandidates st rawEligibility 20
      if candidates.isEmpty then
        { canonicalKey := none, method := .fallback, confidence := 0, raw := rawEligibility }
      else
        match gemini (buildEligibilityClassificationPrompt rawEligibility candidates) with
        | .error _ =>
          { canonicalKey := none, method := .fallback, confidence := 0, raw := rawEligibility }
        | .ok parsed =>
          if parsed.canonicalKey = "" || parsed.canonicalKey = "UNKNOWN" then
            { canonicalKey := none, method := .gemini,
              confidence := parsed.confidence.getD 0.3, raw := rawEligibility }
          else
            match st.eligibilitiesByKey.find? (fun e => e.key == parsed.canonicalKey) with
            | none =>
              { canonicalKey := none, method := .gemini,
                confidence := parsed.confidence.getD 0.2, raw := rawEligibility }
            | some _ =>
              { canonicalKey := some parsed.canonicalKey, method := .gemini,
                confidence := parsed.confidence.getD 0.8, raw := rawEligibility }

/-! ### Composite degree strings (`normalizeCompositeDegreeString`) -/

/-- "Scores in the 0–100 range", the bound asserted by the specification. -/
def boundedScore (q : ℚ) : Prop := 0 ≤ q ∧ q ≤ 100

/-- Written from the spec's words: the best match of one required
eligibility line is the maximum tier value over the applicant
eligibilities. -/
def specEligBestValue (reqElig : String) (appEligs : List String) : ℚ :=
  (appEligs.map (eligTier true reqElig)).foldl max 0

/-- Written from the spec's words (the shared eligibility pattern of C3):
per requirement line the best tier value; proportional score
`matchRatio·60 + avgSimilarity·0.4`; surplus bonus `min(surplus·5, 15)`
capped at 100; floored at 40 when any match was found, else capped at 25.
The matched count is the number of distinct applicant strings that won a
best-match slot, as the spec describes the tracking. -/
def specEligScore (jobEligs appEligs : List String) : ℚ :=
  let bestValues := jobEligs.map (fun r => specEligBestValue r appEligs)
  let matchedCount := (uniqueMatchedElig true jobEligs appEligs).length
  let matchRatioTimes60 := (matchedCount : ℚ) / (jobEligs.length : ℚ) * 60
  let avgContribution := bestValues.sum / (jobEligs.length : ℚ) * 0.4
  let bonus := min (max 0 ((appEligs.length : ℚ) - (jobEligs.length : ℚ)) * 5) 15
  let capped := min (matchRatioTimes60 + avgContribution + bonus) 100
  if matchedCount > 0 then max capped 40 else min capped 25

/-- Claim C3 as stated: all three algorithms compute the eligibility score
of a job with genuine eligibility requirements by the shared pattern. -/
def eligPatternAllThree : Prop :=
  ∀ (job : JobRequirements) (applicant : ApplicantData),
    eligRequired (jobEligsOf job) = true →
      (algorithm1_WeightedSum job applicant).eligibilityScore =
          specEligScore (jobEligsOf job) (appEligsOf applicant) ∧
        (∀ jsExp : ℚ → ℚ,
          (algorithm2_SkillExperienceComposite jsExp job applicant).eligibilityScore =
            specEligScore (jobEligsOf job) (appEligsOf applicant)) ∧
        (algorithm3_EligibilityEducationTiebreaker job applicant).eligibilityScore =
          specEligScore (jobEligsOf job) (appEligsOf applicant)

/-- Claim C1 as stated, blend half: when Algorithms 1 and 2 differ by more
than 5 points, every score field of the ensemble equals the exact blend
`0.6·Algorithm1 + 0.4·Algorithm2` (no rounding). -/
def ensembleBlendExact : Prop :=
  ∀ (jsExp : ℚ → ℚ) (job : JobRequirements) (applicant : ApplicantData),
    ¬ (|(algorithm1_WeightedSum job applicant).totalScore -
          (algorithm2_SkillExperienceComposite jsExp job applicant).totalScore| ≤ 5) →
      (ensembleScore jsExp job applicant).educationScore =
          (algorithm1_WeightedSum job applicant).educationScore * 0.6 +
            (algorithm2_SkillExperienceComposite jsExp job applicant).educationScore * 0.4 ∧
        (ensembleScore jsExp job applicant).experienceScore =
          (algorithm1_WeightedSum job applicant).experienceScore * 0.6 +
            (algorithm2_SkillExperienceComposite jsExp job applicant).experienceScore * 0.4 ∧
        (ensembleScore jsExp job applicant).skillsScore =
          (algorithm1_WeightedSum job applicant).skillsScore * 0.6 +
            (algorithm2_SkillExperienceComposite jsExp job applicant).skillsScore * 0.4 ∧
        (ensembleScore jsExp job applicant).eligibilityScore =
          (algorithm1_WeightedSum job applicant).eligibilityScore * 0.6 +
            (algorithm2_SkillExperienceComposite jsExp job applicant).eligibilityScore * 0.4 ∧
        (ensembleScore jsExp job applicant).totalScore =
          (algorithm1_WeightedSum job applicant).totalScore * 0.6 +
            (algorithm2_SkillExperienceComposite jsExp job applicant).totalScore * 0.4

/-- A concrete stand-in for `Math.exp`; on every input below the code only
uses the quotient `jsExp 1 / jsExp 1`, which equals 1 for any model with
`jsExp 1 ≠ 0`, in particular for the real exponential. -/
def expOne : ℚ → ℚ := fun _ => 1

/-- Job with three required skills and no eligibility requirement. -/
def exJob1 : JobRequirements :=
  { title := "t", description := "", degreeRequirement := "x", eligibilities := [],
    skills := ["a", "b", "c"], yearsOfExperience := 1 }

/-- Applicant holding one of `exJob1`'s three skills and twice the required
years (so `min(experienceRatio, 2) = 2` and `Math.exp` cancels). -/
def exApplicant1 : ApplicantData :=
  { highestEducationalAttainment := "x", eligibilities := [], skills := ["a"],
    totalYearsExperience := 2, workExperienceTitles := none }

/-- Job on which every component score of every algorithm evaluates to 100
and both job skills are matched. -/
def exJob2 : JobRequirements :=
  { title := "clerk", description := "", degreeRequirement := "x",
    eligibilities := ["aaaa"], skills := ["ab", "cd"], yearsOfExperience := 1 }

/-- The perfectly matching applicant for `exJob2`. -/
def exApplicant2 : ApplicantData :=
  { highestEducationalAttainment := "x", eligibilities := ["aaaa"],
    skills := ["ab", "cd"], totalYearsExperience := 5,
    workExperienceTitles := some ["clerk"] }

/-- Job with one eligibility requirement. -/
def exJob3 : JobRequirements :=
  { title := "t", description := "", degreeRequirement := "x",
    eligibilities := ["aaaa"], skills := [], yearsOfExperience := 1 }

/-- Applicant with four eligibilities whose best match scores 75: the
surplus bonus (Algorithms 1/2 only) lifts the score from 90 to 100. -/
def exApplicant3 : ApplicantData :=
  { highestEducationalAttainment := "x", eligibilities := ["aaab", "bbbb", "cccc", "dddd"],
    skills := [], totalYearsExperience := 0, workExperienceTitles := none }

/-- Empty dictionary state (both yaml sources absent). -/
def exDictEmpty : DictState :=
  { degreesByKey := [], degreeAliasIndex := [], eligibilitiesByKey := [],
    eligibilityAliasIndex := [] }

/-- A canonical degree entry. -/
def exDegreeEntry : CanonicalDegree :=
  { key := "k1", canonical := "abc def", level := none, fieldGroup := none, aliases := [] }

/-- A canonical eligibility entry. -/
def exEligEntry : CanonicalEligibility :=
  { key := "e1", canonical := "abc def", category := none, aliases := [] }

/-- One canonical degree and one canonical eligibility, with empty alias
indexes, so that the alias lookup misses but candidate selection succeeds. -/
def exDictSmall : DictState :=
  { degreesByKey := [exDegreeEntry],
    degreeAliasIndex := [],
    eligibilitiesByKey := [exEligEntry],
    eligibilityAliasIndex := [] }

/-- An external classification call that always fails. -/
def failOracle : GeminiOracle := fun _ => .error ()

/-- Two sort entries identical in all five scores, differing only in raw
years of experience (5 vs 3). -/
def exEntryA : SortEntry :=
  { totalScore := 90, eligibilityScore := 80, educationScore := 70,
    experienceScore := 60, skillsScore := 50, totalYearsExperience := 5, skills := [] }

/-- See `exEntryA`; the applicant with 3 years. -/
def exEntryB : SortEntry :=
  { totalScore := 90, eligibilityScore := 80, educationScore := 70,
    experienceScore := 60, skillsScore := 50, totalYearsExperience := 3, skills := [] }

/-- The reduced eligibility pattern that Algorithm 3 actually computes
(established by `elig_pattern_algs12_alg3_reduced`): best tier value per
requirement WITHOUT the token-overlap tier, proportional score
`matchRatio·60 + avgSimilarity·0.4`, and NO surplus bonus, cap, floor or
no-match penalty. -/
def specEligScoreReduced (jobEligs appEligs : List String) : ℚ :=
  let bestValues := jobEligs.map (fun r => (appEligs.map (eligTier false r)).foldl max 0)
  ((uniqueMatchedElig false jobEligs appEligs).length : ℚ) / (jobEligs.length : ℚ) * 60 +
    bestValues.sum / (jobEligs.length : ℚ) * 0.4

/-! ## General lemmas -/

/-- Invariant preservation along `List.foldl`. -/
theorem foldl_preserve {α β : Type} (P : β → Prop) (f : β → α → β)
    (hstep : ∀ b a, P b → P (f b a)) :
    ∀ (l : List α) (b : β), P b → P (l.foldl f b) := by
  intro l
  induction l with
  | nil => intro b hb; exact hb
  | cons x xs ih => intro b hb; exact ih _ (hstep _ _ hb)

/-- A list of rationals bounded above by `c` sums to at most `c · length`. -/
theorem listSum_le_card_mul (l : List ℚ) (c : ℚ) (h : ∀ x ∈ l, x ≤ c) :
    l.sum ≤ c * l.length := by
  induction l with
  | nil => simp
  | cons x xs ih =>
    have hx : x ≤ c := h x (by simp)
    have hxs : xs.sum ≤ c * xs.length := ih (fun y hy => h y (by simp [hy]))
    simp only [List.sum_cons, List.length_cons]
    push_cast
    linarith

/-- A list of non-negative rationals has a non-negative sum. -/
theorem listSum_nonneg (l : List ℚ) (h : ∀ x ∈ l, 0 ≤ x) : 0 ≤ l.sum := by
  induction l with
  | nil => simp
  | cons x xs ih =>
    have hx : 0 ≤ x := h x (by simp)
    have hxs : 0 ≤ xs.sum := ih (fun y hy => h y (by simp [hy]))
    simp only [List.sum_cons]
    linarith

/-- Deduplication never lengthens a list. -/
theorem dedupGo_length_le : ∀ (l seen : List String), (dedupGo seen l).length ≤ l.length := by
  intro l
  induction l with
  | nil => intro seen; simp [dedupGo]
  | cons x xs ih =>
    intro seen
    by_cases hx : seen.contains x
    · simp only [dedupGo, hx, if_pos]
      exact (ih seen).trans (by simp)
    · simp only [dedupGo, hx, if_neg, Bool.false_eq_true, not_false_iff, List.length_cons]
      exact Nat.succ_le_succ (ih (x :: seen))

/-! ## Range lemmas for the score components -/

theorem stringSimilarity_bounds (a b : String) : boundedScore (stringSimilarity a b) := by
  unfold stringSimilarity boundedScore
  dsimp only
  split
  · norm_num
  · split
    · norm_num
    · exact ⟨le_max_left 0 _, max_le (by norm_num) (min_le_left _ _)⟩

theorem orOptionLoop_bounds (applicantField : String) :
    ∀ (l : List String) (best : ℚ), 0 ≤ best → best ≤ 100 →
      boundedScore (orOptionLoop applicantField l best) := by
  intro l
  induction l with
  | nil => intro best h0 h1; exact ⟨h0, h1⟩
  | cons o rest ih =>
    intro best h0 h1
    simp only [orOptionLoop]
    split
    · exact ⟨by norm_num, by norm_num⟩
    · exact ih _ (le_trans h0 (le_max_left _ _))
        (max_le h1 (stringSimilarity_bounds _ _).2)

theorem matchDegreeRequirement_bounds (jobDegree applicantDegree : String) :
    boundedScore (matchDegreeRequirement jobDegree applicantDegree) := by
  unfold matchDegreeRequirement
  dsimp only
  split
  · exact orOptionLoop_bounds _ _ 0 le_rfl (by norm_num)
  · exact stringSimilarity_bounds _ _

theorem degreeLevelAdjust_bounds (jobDegree applicantDegree : String) (base : ℚ)
    (h : boundedScore base) :
    boundedScore (degreeLevelAdjust jobDegree applicantDegree base) := by
  obtain ⟨h0, h1⟩ := h
  unfold degreeLevelAdjust
  cases hj : findDegreeLevel jobDegree with
  | none => exact ⟨h0, h1⟩
  | some jobLevel =>
    cases ha : findDegreeLevel applicantDegree with
    | none => exact ⟨h0, h1⟩
    | some applicantLevel =>
      dsimp only
      set floored : ℚ :=
        if jobLevel = applicantLevel then
          (if base ≥ 40 then max base 60 else max base 40)
        else base with hfdef
      have hf : 0 ≤ floored ∧ floored ≤ 100 := by
        rw [hfdef]
        split
        · split
          · exact ⟨le_trans h0 (le_max_left _ _), max_le h1 (by norm_num)⟩
          · exact ⟨le_trans h0 (le_max_left _ _), max_le h1 (by norm_num)⟩
        · exact ⟨h0, h1⟩
      obtain ⟨hf0, hf1⟩ := hf
      split
      · exact ⟨le_min (by linarith) (by norm_num), min_le_right _ _⟩
      · split
        · exact ⟨le_trans (by norm_num) (le_max_right _ _), max_le (by linarith) (by norm_num)⟩
        · exact ⟨hf0, hf1⟩

theorem relatedFieldsBoost_bounds (jobDegree applicantDegree : String) (base : ℚ)
    (h : boundedScore base) :
    boundedScore (relatedFieldsBoost jobDegree applicantDegree base) := by
  unfold relatedFieldsBoost
  refine foldl_preserve boundedScore _ ?_ _ _ h
  intro b p hb
  dsimp only
  split
  · exact ⟨le_trans hb.1 (le_max_left _ _), max_le hb.2 (by norm_num)⟩
  · exact hb

theorem educationScoreBase_bounds (jobDegree applicantDegree : String) :
    boundedScore (educationScoreBase jobDegree applicantDegree) :=
  degreeLevelAdjust_bounds _ _ _ (matchDegreeRequirement_bounds _ _)

theorem educationScoreAlg1_bounds (jobDegree applicantDegree : String) :
    boundedScore (educationScoreAlg1 jobDegree applicantDegree) := by
  have h := relatedFieldsBoost_bounds jobDegree applicantDegree _
    (educationScoreBase_bounds jobDegree applicantDegree)
  exact ⟨le_trans h.1 (le_max_left _ _), max_le h.2 (by norm_num)⟩

theorem educationScoreAlg2_bounds (jobDegree applicantDegree : String) :
    boundedScore (educationScoreAlg2 jobDegree applicantDegree) := by
  have h := educationScoreBase_bounds jobDegree applicantDegree
  exact ⟨le_trans h.1 (le_max_left _ _), max_le h.2 (by norm_num)⟩

/-- The token-overlap ratio `(filtered / total) · k` lies in `[0, k]` when
the filtered sublist is non-empty. -/
theorem filterRatio_bounds (l : List String) (p : String → Bool) (k : ℚ) (hk : 0 ≤ k)
    (hpos : 0 < (l.filter p).length) :
    0 ≤ ((l.filter p).length : ℚ) / (l.length : ℚ) * k ∧
      ((l.filter p).length : ℚ) / (l.length : ℚ) * k ≤ k := by
  have hle : (l.filter p).length ≤ l.length := List.length_filter_le p l
  have hl : 0 < l.length := lt_of_lt_of_le hpos hle
  have hlq : (0:ℚ) < (l.length : ℚ) := by exact_mod_cast hl
  have hratio : ((l.filter p).length : ℚ) / (l.length : ℚ) ≤ 1 := by
    rw [div_le_one hlq]
    exact_mod_cast hle
  have hr0 : 0 ≤ ((l.filter p).length : ℚ) / (l.length : ℚ) :=
    div_nonneg (by positivity) (le_of_lt hlq)
  constructor
  · exact mul_nonneg hr0 hk
  · calc ((l.filter p).length : ℚ) / (l.length : ℚ) * k ≤ 1 * k :=
        mul_le_mul_of_nonneg_right hratio hk
    _ = k := one_mul k

theorem titleRelevanceLoop_bounds (jobTitleLower : String) (withTokenBoost : Bool) :
    ∀ (l : List String) (best : ℚ), 0 ≤ best → best ≤ 100 →
      boundedScore (titleRelevanceLoop jobTitleLower withTokenBoost l best) := by
  intro l
  induction l with
  | nil => intro best h0 h1; exact ⟨h0, h1⟩
  | cons t rest ih =>
    intro best h0 h1
    simp only [titleRelevanceLoop]
    have hsim := stringSimilarity_bounds jobTitleLower (jsTrim (jsToLower t))
    have hb1a : 0 ≤ max best (stringSimilarity jobTitleLower (jsTrim (jsToLower t))) :=
      le_trans h0 (le_max_left _ _)
    have hb1b : max best (stringSimilarity jobTitleLower (jsTrim (jsToLower t))) ≤ 100 :=
      max_le h1 hsim.2
    cases withTokenBoost with
    | false => exact ih _ hb1a hb1b
    | true =>
      rw [if_pos rfl]
      split
      next hpos =>
        have hrat := filterRatio_bounds (normalizeSkill jobTitleLower)
          (fun tok => (normalizeSkill (jsToLower t)).contains tok) 80 (by norm_num) hpos
        exact ih _ (le_trans hb1a (le_max_left _ _))
          (max_le hb1b (le_trans hrat.2 (by norm_num)))
      · exact ih _ hb1a hb1b

theorem relevanceScoreOf_bounds (jobTitle : String) (titles : Option (List String))
    (withTokenBoost : Bool) :
    boundedScore (relevanceScoreOf jobTitle titles withTokenBoost) := by
  unfold relevanceScoreOf
  cases titles with
  | none => exact ⟨by norm_num, by norm_num⟩
  | some ts =>
    dsimp only
    split
    · exact titleRelevanceLoop_bounds _ _ _ 0 le_rfl (by norm_num)
    · exact ⟨by norm_num, by norm_num⟩

theorem yearsScoreOf_bounds (requiredYears applicantYears : ℚ) :
    boundedScore (yearsScoreOf requiredYears applicantYears) := by
  unfold yearsScoreOf
  split
  · exact ⟨by norm_num, by norm_num⟩
  · split
    · exact ⟨by norm_num, by norm_num⟩
    · exact ⟨by norm_num, by norm_num⟩

theorem experienceScoreOf_bounds (job : JobRequirements) (applicant : ApplicantData)
    (withTokenBoost : Bool) :
    boundedScore (experienceScoreOf job applicant withTokenBoost) := by
  unfold experienceScoreOf
  have hy := yearsScoreOf_bounds (effectiveRequiredYears job) applicant.totalYearsExperience
  have hr := relevanceScoreOf_bounds job.title applicant.workExperienceTitles withTokenBoost
  constructor
  · have := hy.1; have := hr.1; nlinarith
  · have := hy.2; have := hr.2; nlinarith

theorem skillBestLoop_bounds (jobSkill : String) :
    ∀ (l : List String) (best : ℚ), 0 ≤ best → best ≤ 100 →
      boundedScore (skillBestLoop jobSkill l best) := by
  intro l
  induction l with
  | nil => intro best h0 h1; exact ⟨h0, h1⟩
  | cons a rest ih =>
    intro best h0 h1
    simp only [skillBestLoop]
    split
    · exact ⟨by norm_num, by norm_num⟩
    · split
      · exact ih _ (le_trans h0 (le_max_left _ _)) (max_le h1 (by norm_num))
      · split
        · exact ih _ (le_trans h0 (le_max_left _ _)) (max_le h1 (by norm_num))
        · split
          next hpos =>
            have hrat := filterRatio_bounds (normalizeSkill jobSkill)
              (fun tok => (normalizeSkill a).contains tok) 30 (by norm_num) (by omega)
            exact ih _ (le_trans h0 (le_max_left _ _))
              (max_le h1 (le_trans hrat.2 (by norm_num)))
          · exact ih _ h0 h1

theorem calculateSkillMatch_score_bounds (jobSkills applicantSkills : List String) :
    boundedScore (calculateSkillMatch jobSkills applicantSkills).1 := by
  unfold calculateSkillMatch
  dsimp only
  split
  · exact ⟨by norm_num, by norm_num⟩
  · split
    · exact ⟨by norm_num, by norm_num⟩
    next hne _ =>
      have hlen : 0 < jobSkills.length := by
        cases jobSkills with
        | nil => simp at hne
        | cons x xs => simp
      have hlenq : (0:ℚ) < (jobSkills.length : ℚ) := by exact_mod_cast hlen
      have hsum0 : 0 ≤ (jobSkills.map (fun js => skillBestLoop js applicantSkills 0)).sum := by
        refine listSum_nonneg _ ?_
        intro x hx
        obtain ⟨js, _, rfl⟩ := List.mem_map.mp hx
        exact (skillBestLoop_bounds js applicantSkills 0 le_rfl (by norm_num)).1
      have hsum1 : (jobSkills.map (fun js => skillBestLoop js applicantSkills 0)).sum ≤
          100 * ((jobSkills.map (fun js => skillBestLoop js applicantSkills 0)).length : ℚ) := by
        refine listSum_le_card_mul _ 100 ?_
        intro x hx
        obtain ⟨js, _, rfl⟩ := List.mem_map.mp hx
        exact (skillBestLoop_bounds js applicantSkills 0 le_rfl (by norm_num)).2
      rw [List.length_map] at hsum1
      have hfinal0 : 0 ≤ (jobSkills.map (fun js => skillBestLoop js applicantSkills 0)).sum /
          ((jobSkills.length : ℚ) * 100) * 100 := by positivity
      have hfinal1 : (jobSkills.map (fun js => skillBestLoop js applicantSkills 0)).sum /
          ((jobSkills.length : ℚ) * 100) * 100 ≤ 100 := by
        have hdiv : (jobSkills.map (fun js => skillBestLoop js applicantSkills 0)).sum /
            ((jobSkills.length : ℚ) * 100) ≤ 1 := by
          rw [div_le_one (by positivity)]
          linarith
        nlinarith
      have hbon0 : (0:ℚ) ≤
          min (max 0 ((applicantSkills.length : ℚ) - (jobSkills.length : ℚ)) * 2) 10 := by
        have : (0:ℚ) ≤ max 0 ((applicantSkills.length : ℚ) - (jobSkills.length : ℚ)) * 2 := by
          have := le_max_left (0:ℚ) ((applicantSkills.length : ℚ) - (jobSkills.length : ℚ))
          linarith
        exact le_min this (by norm_num)
      constructor
      · exact le_min (by linarith) (by norm_num)
      · exact min_le_right _ _

theorem calculateSkillMatch_count_le (jobSkills applicantSkills : List String) :
    (calculateSkillMatch jobSkills applicantSkills).2 ≤ jobSkills.length := by
  unfold calculateSkillMatch
  dsimp only
  split
  · simp
  · split
    · simp
    · exact List.countP_le_length _

theorem eligTier_bounds (withTokenTier : Bool) (reqElig appElig : String) :
    boundedScore (eligTier withTokenTier reqElig appElig) := by
  unfold eligTier
  have hsim := stringSimilarity_bounds reqElig appElig
  dsimp only
  split
  · exact ⟨le_trans (by norm_num) hsim.1, hsim.2⟩
  · split
    · exact ⟨by nlinarith [hsim.1], by nlinarith [hsim.2]⟩
    · cases withTokenTier with
      | false => exact ⟨le_rfl, by norm_num⟩
      | true =>
        rw [if_pos rfl]
        split
        next hpos =>
          have hrat := filterRatio_bounds (normalizeSkill reqElig)
            (fun tok => (normalizeSkill appElig).contains tok) 40 (by norm_num) hpos
          exact ⟨hrat.1, le_trans hrat.2 (by norm_num)⟩
        · exact ⟨le_rfl, by norm_num⟩

theorem eligBestPair_fst_bounds (withTokenTier : Bool) (reqElig : String)
    (appEligs : List String) :
    boundedScore (eligBestPair withTokenTier reqElig appEligs).1 := by
  unfold eligBestPair
  have h := foldl_preserve (fun acc : ℚ × String => boundedScore acc.1)
    (fun acc appElig =>
      let v := eligTier withTokenTier reqElig appElig
      if v > acc.1 then (v, appElig) else acc)
    ?_ appEligs (0, "") ⟨le_rfl, by norm_num⟩
  · exact h
  · intro b a hb
    dsimp only
    split
    · exact eligTier_bounds withTokenTier reqElig a
    · exact hb

theorem uniqueMatchedElig_length_le (withTokenTier : Bool) (jobEligs appEligs : List String) :
    (uniqueMatchedElig withTokenTier jobEligs appEligs).length ≤ jobEligs.length := by
  unfold uniqueMatchedElig
  exact le_trans (dedupGo_length_le _ _)
    (le_trans (List.length_filterMap_le _ _) le_rfl)

theorem eligProportional_bounds (withTokenTier : Bool) (jobEligs appEligs : List String)
    (hne : jobEligs ≠ []) :
    boundedScore (eligProportional withTokenTier jobEligs appEligs).1 ∧
      (eligProportional withTokenTier jobEligs appEligs).2 ≤ jobEligs.length := by
  have hlen : 0 < jobEligs.length := List.length_pos.mpr hne
  have hlenq : (0:ℚ) < (jobEligs.length : ℚ) := by exact_mod_cast hlen
  have hcount := uniqueMatchedElig_length_le withTokenTier jobEligs appEligs
  have hsum0 : 0 ≤ (jobEligs.map (fun r => (eligBestPair withTokenTier r appEligs).1)).sum := by
    refine listSum_nonneg _ ?_
    intro x hx
    obtain ⟨r, _, rfl⟩ := List.mem_map.mp hx
    exact (eligBestPair_fst_bounds withTokenTier r appEligs).1
  have hsum1 : (jobEligs.map (fun r => (eligBestPair withTokenTier r appEligs).1)).sum ≤
      100 * ((jobEligs.map (fun r => (eligBestPair withTokenTier r appEligs).1)).length : ℚ) := by
    refine listSum_le_card_mul _ 100 ?_
    intro x hx
    obtain ⟨r, _, rfl⟩ := List.mem_map.mp hx
    exact (eligBestPair_fst_bounds withTokenTier r appEligs).2
  rw [List.length_map] at hsum1
  have hratio0 : (0:ℚ) ≤
      ((uniqueMatchedElig withTokenTier jobEligs appEligs).length : ℚ) / (jobEligs.length : ℚ) :=
    div_nonneg (by positivity) (le_of_lt hlenq)
  have hratio1 :
      ((uniqueMatchedElig withTokenTier jobEligs appEligs).length : ℚ) / (jobEligs.length : ℚ) ≤ 1 := by
    rw [div_le_one hlenq]
    exact_mod_cast hcount
  have havg0 : (0:ℚ) ≤
      (jobEligs.map (fun r => (eligBestPair withTokenTier r appEligs).1)).sum /
        (jobEligs.length : ℚ) :=
    div_nonneg hsum0 (le_of_lt hlenq)
  have havg1 :
      (jobEligs.map (fun r => (eligBestPair withTokenTier r appEligs).1)).sum /
        (jobEligs.length : ℚ) ≤ 100 := by
    rw [div_le_iff₀ hlenq]
    linarith
  refine ⟨⟨?_, ?_⟩, hcount⟩
  · unfold eligProportional
    dsimp only
    nlinarith
  · unfold eligProportional
    dsimp only
    nlinarith

theorem eligScoreAlg12_bounds (jobEligs appEligs : List String) :
    boundedScore (eligScoreAlg12 jobEligs appEligs).1 := by
  unfold eligScoreAlg12
  dsimp only
  split
  next hreq =>
    have hne : jobEligs ≠ [] := by
      intro hnil
      rw [hnil] at hreq
      simp [eligRequired] at hreq
    obtain ⟨⟨hp0, hp1⟩, _⟩ := eligProportional_bounds true jobEligs appEligs hne
    have hbon0 : (0:ℚ) ≤ min (max 0 ((appEligs.length : ℚ) - (jobEligs.length : ℚ)) * 5) 15 := by
      have : (0:ℚ) ≤ max 0 ((appEligs.length : ℚ) - (jobEligs.length : ℚ)) * 5 := by
        have := le_max_left (0:ℚ) ((appEligs.length : ℚ) - (jobEligs.length : ℚ))
        linarith
      exact le_min this (by norm_num)
    have hcap0 : (0:ℚ) ≤ min ((eligProportional true jobEligs appEligs).1 +
        min (max 0 ((appEligs.length : ℚ) - (jobEligs.length : ℚ)) * 5) 15) 100 :=
      le_min (by linarith) (by norm_num)
    have hcap1 : min ((eligProportional true jobEligs appEligs).1 +
        min (max 0 ((appEligs.length : ℚ) - (jobEligs.length : ℚ)) * 5) 15) 100 ≤ 100 :=
      min_le_right _ _
    split
    · exact ⟨le_trans hcap0 (le_max_left _ _), max_le hcap1 (by norm_num)⟩
    · exact ⟨le_min hcap0 (by norm_num), le_trans (min_le_right _ _) (by norm_num)⟩
  · exact ⟨by norm_num, by norm_num⟩

theorem eligScoreAlg12_count_le (jobEligs appEligs : List String) :
    (eligScoreAlg12 jobEligs appEligs).2 ≤ jobEligs.length := by
  unfold eligScoreAlg12
  dsimp only
  split
  · exact uniqueMatchedElig_length_le true jobEligs appEligs
  · simp

theorem eligScoreAlg3_bounds (jobEligs appEligs : List String) :
    boundedScore (eligScoreAlg3 jobEligs appEligs).1 := by
  unfold eligScoreAlg3
  split
  next hreq =>
    have hne : jobEligs ≠ [] := by
      intro hnil
      rw [hnil] at hreq
      simp [eligRequired] at hreq
    exact (eligProportional_bounds false jobEligs appEligs hne).1
  · exact ⟨by norm_num, by norm_num⟩

theorem eligScoreAlg3_count_le (jobEligs appEligs : List String) :
    (eligScoreAlg3 jobEligs appEligs).2 ≤ jobEligs.length := by
  unfold eligScoreAlg3
  split
  next hreq =>
    have hne : jobEligs ≠ [] := by
      intro hnil
      rw [hnil] at hreq
      simp [eligRequired] at hreq
    exact (eligProportional_bounds false jobEligs appEligs hne).2
  · simp

/-- Two-decimal rounding keeps the score range. -/
theorem round2_bounds (q : ℚ) (h0 : 0 ≤ q) (h1 : q ≤ 100) :
    0 ≤ round2 q ∧ round2 q ≤ 100 := by
  unfold round2 jsRound
  have hfl0 : (0:ℤ) ≤ ⌊q * 100 + 1 / 2⌋ := by
    apply Int.floor_nonneg.mpr
    linarith
  have hfl1 : ⌊q * 100 + 1 / 2⌋ ≤ (10000 : ℤ) := by
    have h := Int.floor_le_floor (α := ℚ) (show q * 100 + 1/2 ≤ (10000:ℚ) + 1/2 by linarith)
    have hconst : (⌊(10000:ℚ) + 1/2⌋ : ℤ) = 10000 := by decide
    rw [hconst] at h
    exact h
  constructor
  · positivity
  · rw [div_le_iff₀ (by norm_num : (0:ℚ) < 100)]
    have : ((⌊q * 100 + 1 / 2⌋ : ℤ) : ℚ) ≤ (10000 : ℚ) := by exact_mod_cast hfl1
    linarith

/-! ## Claim theorems -/

/-- Claim C5: for every job/applicant pair, the four component scores
returned by each of the three algorithms lie in `[0, 100]`, and Algorithm
1's `totalScore` lies in `[0, 100]`.  (`jsExp` ranges over all models of
`Math.exp`; none of the listed fields depends on it.) -/
theorem component_scores_in_range (jsExp : ℚ → ℚ) (job : JobRequirements)
    (applicant : ApplicantData) :
    boundedScore (algorithm1_WeightedSum job applicant).educationScore ∧
    boundedScore (algorithm1_WeightedSum job applicant).experienceScore ∧
    boundedScore (algorithm1_WeightedSum job applicant).skillsScore ∧
    boundedScore (algorithm1_WeightedSum job applicant).eligibilityScore ∧
    boundedScore (algorithm1_WeightedSum job applicant).totalScore ∧
    boundedScore (algorithm2_SkillExperienceComposite jsExp job applicant).educationScore ∧
    boundedScore (algorithm2_SkillExperienceComposite jsExp job applicant).experienceScore ∧
    boundedScore (algorithm2_SkillExperienceComposite jsExp job applicant).skillsScore ∧
    boundedScore (algorithm2_SkillExperienceComposite jsExp job applicant).eligibilityScore ∧
    boundedScore (algorithm3_EligibilityEducationTiebreaker job applicant).educationScore ∧
    boundedScore (algorithm3_EligibilityEducationTiebreaker job applicant).experienceScore ∧
    boundedScore (algorithm3_EligibilityEducationTiebreaker job applicant).skillsScore ∧
    boundedScore (algorithm3_EligibilityEducationTiebreaker job applicant).eligibilityScore := by
  have he1 := educationScoreAlg1_bounds (jsTrim (jsToLower job.degreeRequirement))
    (jsTrim (jsToLower applicant.highestEducationalAttainment))
  have he2 := educationScoreAlg2_bounds (jsTrim (jsToLower job.degreeRequirement))
    (jsTrim (jsToLower applicant.highestEducationalAttainment))
  have he3 := educationScoreBase_bounds (jsTrim (jsToLower job.degreeRequirement))
    (jsTrim (jsToLower applicant.highestEducationalAttainment))
  have hxT := experienceScoreOf_bounds job applicant true
  have hxF := experienceScoreOf_bounds job applicant false
  have hs := calculateSkillMatch_score_bounds job.skills applicant.skills
  have hl12 := eligScoreAlg12_bounds (jobEligsOf job) (appEligsOf applicant)
  have hl3 := eligScoreAlg3_bounds (jobEligsOf job) (appEligsOf applicant)
  refine ⟨?_, ?_, ?_, ?_, ?_, ?_, ?_, ?_, ?_, ?_, ?_, ?_, ?_⟩
  · simpa only [algorithm1_WeightedSum] using he1
  · simpa only [algorithm1_WeightedSum] using hxT
  · simpa only [algorithm1_WeightedSum] using hs
  · simpa only [algorithm1_WeightedSum] using hl12
  · simp only [algorithm1_WeightedSum, alg1Weights]
    exact round2_bounds _ (by nlinarith [he1.1, hxT.1, hs.1, hl12.1])
      (by nlinarith [he1.2, hxT.2, hs.2, hl12.2])
  · simpa only [algorithm2_SkillExperienceComposite] using he2
  · simpa only [algorithm2_SkillExperienceComposite] using hxT
  · simpa only [algorithm2_SkillExperienceComposite] using hs
  · simpa only [algorithm2_SkillExperienceComposite] using hl12
  · simpa only [algorithm3_EligibilityEducationTiebreaker] using he3
  · simpa only [algorithm3_EligibilityEducationTiebreaker] using hxF
  · simpa only [algorithm3_EligibilityEducationTiebreaker] using hs
  · simpa only [algorithm3_EligibilityEducationTiebreaker] using hl3

/-- Claim C6: for every algorithm (the three base algorithms and the
ensemble), `matchedSkillsCount` never exceeds the number of required job
skills and `matchedEligibilitiesCount` never exceeds the number of job
eligibility lines. -/
theorem matched_counts_within_requirements (jsExp : ℚ → ℚ) (job : JobRequirements)
    (applicant : ApplicantData) :
    (algorithm1_WeightedSum job applicant).matchedSkillsCount ≤ job.skills.length ∧
    (algorithm1_WeightedSum job applicant).matchedEligibilitiesCount ≤
      job.eligibilities.length ∧
    (algorithm2_SkillExperienceComposite jsExp job applicant).matchedSkillsCount ≤
      job.skills.length ∧
    (algorithm2_SkillExperienceComposite jsExp job applicant).matchedEligibilitiesCount ≤
      job.eligibilities.length ∧
    (algorithm3_EligibilityEducationTiebreaker job applicant).matchedSkillsCount ≤
      job.skills.length ∧
    (algorithm3_EligibilityEducationTiebreaker job applicant).matchedEligibilitiesCount ≤
      job.eligibilities.length ∧
    (ensembleScore jsExp job applicant).matchedSkillsCount ≤ job.skills.length ∧
    (ensembleScore jsExp job applicant).matchedEligibilitiesCount ≤
      job.eligibilities.length := by
  have hsk := calculateSkillMatch_count_le job.skills applicant.skills
  have hel12 : (eligScoreAlg12 (jobEligsOf job) (appEligsOf applicant)).2 ≤
      job.eligibilities.length := by
    have h := eligScoreAlg12_count_le (jobEligsOf job) (appEligsOf applicant)
    simpa [jobEligsOf, List.length_map] using h
  have hel3 : (eligScoreAlg3 (jobEligsOf job) (appEligsOf applicant)).2 ≤
      job.eligibilities.length := by
    have h := eligScoreAlg3_count_le (jobEligsOf job) (appEligsOf applicant)
    simpa [jobEligsOf, List.length_map] using h
  refine ⟨?_, ?_, ?_, ?_, ?_, ?_, ?_, ?_⟩
  · simpa only [algorithm1_WeightedSum] using hsk
  · simpa only [algorithm1_WeightedSum] using hel12
  · simpa only [algorithm2_SkillExperienceComposite] using hsk
  · simpa only [algorithm2_SkillExperienceComposite] using hel12
  · simpa only [algorithm3_EligibilityEducationTiebreaker] using hsk
  · simpa only [algorithm3_EligibilityEducationTiebreaker] using hel3
  · unfold ensembleScore
    dsimp only
    split
    · simpa only [algorithm3_EligibilityEducationTiebreaker] using hsk
    · simpa only [algorithm1_WeightedSum] using hsk
  · unfold ensembleScore
    dsimp only
    split
    · simpa only [algorithm3_EligibilityEducationTiebreaker] using hel3
    · simpa only [algorithm1_WeightedSum] using hel12

/-- Claim C4 counterexample: on `job.skills = ["JavaScript", "Data
Analysis"]`, `applicant.skills = ["JavaScript", "Data Entry"]` the skill
score is 75, not the claimed 57.5 — "Data Analysis" vs "Data Entry" has
Levenshtein similarity `700/13 ≈ 53.85`, which hits the `≥ 50` tier (50
points) before the token-overlap path is ever consulted. -/
theorem skill_scenario_counterexample :
    (calculateSkillMatch ["JavaScript", "Data Analysis"] ["JavaScript", "Data Entry"]).1 = 75 ∧
      ¬ ((calculateSkillMatch ["JavaScript", "Data Analysis"]
          ["JavaScript", "Data Entry"]).1 = 57.5) := by
  constructor
  · decide
  · decide

/-- Claim C4 as amended: "JavaScript" matches exactly (100);
"Data Analysis" vs "Data Entry" has similarity `700/13`, inside `[50, 80)`,
so it scores 50 via the medium-similarity tier; the total is
`(100 + 50)/200 × 100 = 75` with both skills counted as matched (no
surplus bonus since the skill counts are equal). -/
theorem skill_scenario_actual_values :
    stringSimilarity "Data Analysis" "Data Entry" = 700 / 13 ∧
      (50 : ℚ) ≤ 700 / 13 ∧ (700 / 13 : ℚ) < 80 ∧
      skillBestLoop "JavaScript" ["JavaScript", "Data Entry"] 0 = 100 ∧
      skillBestLoop "Data Analysis" ["JavaScript", "Data Entry"] 0 = 50 ∧
      calculateSkillMatch ["JavaScript", "Data Analysis"] ["JavaScript", "Data Entry"] =
        (75, 2) := by
  refine ⟨by decide, by norm_num, by norm_num, by decide, by decide, by decide⟩

/-- Claim C1 counterexample: the blended ensemble fields are rounded to two
decimals, so they do not in general equal the exact componentwise blend.
At `exJob1`/`exApplicant1` (where `min(experienceRatio, 2) = 2` makes the
`Math.exp` factor `jsExp 1 / jsExp 1`, independent of the model), both base
algorithms report `skillsScore = 100/3` but the ensemble stores
`33.33 ≠ 100/3`. -/
theorem ensemble_blend_rounding_counterexample : ¬ ensembleBlendExact := by
  intro h
  have hcond : ¬ (|(algorithm1_WeightedSum exJob1 exApplicant1).totalScore -
      (algorithm2_SkillExperienceComposite expOne exJob1 exApplicant1).totalScore| ≤ 5) := by
    decide
  have hblend := (h expOne exJob1 exApplicant1 hcond).2.2.1
  have hL : (ensembleScore expOne exJob1 exApplicant1).skillsScore = 33.33 := by decide
  have hR : (algorithm1_WeightedSum exJob1 exApplicant1).skillsScore * 0.6 +
      (algorithm2_SkillExperienceComposite expOne exJob1 exApplicant1).skillsScore * 0.4 =
      100 / 3 := by decide
  rw [hL, hR] at hblend
  norm_num at hblend

/-- Claim C1 as amended: `ensembleScore` computes Algorithms 1 and 2; when
their totals differ by at most 5 it returns Algorithm 3's full breakdown
relabelled "Ensemble (Tie-breaker)" with the reasoning annotated with both
preceding totals; otherwise it returns the componentwise blend
`0.6·Algorithm1 + 0.4·Algorithm2` of every score field, each rounded to
two decimals (`Math.round(x·100)/100`), labelled "Multi-Factor
Assessment", with the blend narrative as reasoning and Algorithm 1's
matched counts.  (In particular totals 70 and 90 blend to
`round2 78 = 78`.) -/
theorem ensemble_tie_or_rounded_blend (jsExp : ℚ → ℚ) (job : JobRequirements)
    (applicant : ApplicantData) :
    ensembleScore jsExp job applicant =
      (if |(algorithm1_WeightedSum job applicant).totalScore -
            (algorithm2_SkillExperienceComposite jsExp job applicant).totalScore| ≤ 5 then
        { algorithm3_EligibilityEducationTiebreaker job applicant with
            algorithmUsed := "Ensemble (Tie-breaker)"
            reasoning := tieBreakerNote (algorithm1_WeightedSum job applicant).totalScore
              (algorithm2_SkillExperienceComposite jsExp job applicant).totalScore
              (algorithm3_EligibilityEducationTiebreaker job applicant).reasoning }
      else
        { educationScore := round2 ((algorithm1_WeightedSum job applicant).educationScore * 0.6 +
            (algorithm2_SkillExperienceComposite jsExp job applicant).educationScore * 0.4)
          experienceScore := round2 ((algorithm1_WeightedSum job applicant).experienceScore * 0.6 +
            (algorithm2_SkillExperienceComposite jsExp job applicant).experienceScore * 0.4)
          skillsScore := round2 ((algorithm1_WeightedSum job applicant).skillsScore * 0.6 +
            (algorithm2_SkillExperienceComposite jsExp job applicant).skillsScore * 0.4)
          eligibilityScore := round2 ((algorithm1_WeightedSum job applicant).eligibilityScore * 0.6 +
            (algorithm2_SkillExperienceComposite jsExp job applicant).eligibilityScore * 0.4)
          totalScore := round2 ((algorithm1_WeightedSum job applicant).totalScore * 0.6 +
            (algorithm2_SkillExperienceComposite jsExp job applicant).totalScore * 0.4)
          algorithmUsed := "Multi-Factor Assessment"
          reasoning := blendNarrative
            ((algorithm1_WeightedSum job applicant).educationScore * 0.6 +
              (algorithm2_SkillExperienceComposite jsExp job applicant).educationScore * 0.4)
            ((algorithm1_WeightedSum job applicant).experienceScore * 0.6 +
              (algorithm2_SkillExperienceComposite jsExp job applicant).experienceScore * 0.4)
            ((algorithm1_WeightedSum job applicant).skillsScore * 0.6 +
              (algorithm2_SkillExperienceComposite jsExp job applicant).skillsScore * 0.4)
            ((algorithm1_WeightedSum job applicant).eligibilityScore * 0.6 +
              (algorithm2_SkillExperienceComposite jsExp job applicant).eligibilityScore * 0.4)
          matchedSkillsCount := (algorithm1_WeightedSum job applicant).matchedSkillsCount
          matchedEligibilitiesCount :=
            (algorithm1_WeightedSum job applicant).matchedEligibilitiesCount }) := by
  unfold ensembleScore
  rfl

/-- Claim C2 counterexample: on `exJob2`/`exApplicant2` every component
score of Algorithm 3 is 100 and both job skills are matched (the maximal
count), yet `totalScore = 92`, not 100 — the maximal contributions are
`40 + 30 + 20 + min(2·10, 20)·0.10 = 92`, so Algorithm 3's weights do not
sum to 1. -/
theorem algorithm3_perfect_input_total_92 :
    (algorithm3_EligibilityEducationTiebreaker exJob2 exApplicant2).educationScore = 100 ∧
    (algorithm3_EligibilityEducationTiebreaker exJob2 exApplicant2).experienceScore = 100 ∧
    (algorithm3_EligibilityEducationTiebreaker exJob2 exApplicant2).skillsScore = 100 ∧
    (algorithm3_EligibilityEducationTiebreaker exJob2 exApplicant2).eligibilityScore = 100 ∧
    (algorithm3_EligibilityEducationTiebreaker exJob2 exApplicant2).matchedSkillsCount =
      exJob2.skills.length ∧
    (algorithm3_EligibilityEducationTiebreaker exJob2 exApplicant2).totalScore = 92 ∧
    ¬ ((algorithm3_EligibilityEducationTiebreaker exJob2 exApplicant2).totalScore = 100) := by
  refine ⟨by decide, by decide, by decide, by decide, by decide, by decide, by decide⟩

/-- Claim C2 as amended: Algorithm 1's weights `(0.30, 0.20, 0.20, 0.30)`
sum to 1 and its total is 100 whenever all four components are 100;
Algorithm 2's outer weights `(0.30, 0.35, 0.35)` sum to 1 and its total is
100 whenever additionally the experience ratio is at least 2 (so the
exponential factor cancels); Algorithm 3's contributions cap at
`40 + 30 + 20 + 2 = 92`, so with all components at 100 and the matched
skill count maximal its total is 92, not 100. -/
theorem algorithm_weight_totals (jsExp : ℚ → ℚ) (job : JobRequirements)
    (applicant : ApplicantData) :
    alg1Weights.1 + alg1Weights.2.1 + alg1Weights.2.2.1 + alg1Weights.2.2.2 = 1 ∧
    ((0.30 : ℚ) + 0.35 + 0.35 = 1) ∧
    ((algorithm1_WeightedSum job applicant).educationScore = 100 →
      (algorithm1_WeightedSum job applicant).experienceScore = 100 →
      (algorithm1_WeightedSum job applicant).skillsScore = 100 →
      (algorithm1_WeightedSum job applicant).eligibilityScore = 100 →
      (algorithm1_WeightedSum job applicant).totalScore = 100) ∧
    (jsExp 1 ≠ 0 → 0 ≤ job.yearsOfExperience →
      2 * effectiveRequiredYears job ≤ applicant.totalYearsExperience →
      (algorithm2_SkillExperienceComposite jsExp job applicant).educationScore = 100 →
      (algorithm2_SkillExperienceComposite jsExp job applicant).skillsScore = 100 →
      (algorithm2_SkillExperienceComposite jsExp job applicant).eligibilityScore = 100 →
      (algorithm2_SkillExperienceComposite jsExp job applicant).totalScore = 100) ∧
    ((algorithm3_EligibilityEducationTiebreaker job applicant).educationScore = 100 →
      (algorithm3_EligibilityEducationTiebreaker job applicant).experienceScore = 100 →
      (algorithm3_EligibilityEducationTiebreaker job applicant).skillsScore = 100 →
      (algorithm3_EligibilityEducationTiebreaker job applicant).eligibilityScore = 100 →
      2 ≤ (algorithm3_EligibilityEducationTiebreaker job applicant).matchedSkillsCount →
      (algorithm3_EligibilityEducationTiebreaker job applicant).totalScore = 92) := by
  refine ⟨by decide, by norm_num, ?_, ?_, ?_⟩
  · intro h1 h2 h3 h4
    have hrel : (algorithm1_WeightedSum job applicant).totalScore =
        round2 (alg1Weights.1 * (algorithm1_WeightedSum job applicant).educationScore +
          alg1Weights.2.1 * (algorithm1_WeightedSum job applicant).experienceScore +
          alg1Weights.2.2.1 * (algorithm1_WeightedSum job applicant).skillsScore +
          alg1Weights.2.2.2 * (algorithm1_WeightedSum job applicant).eligibilityScore) := rfl
    rw [hrel, h1, h2, h3, h4]
    decide
  · intro hexp hy0 hratio h1 h2 h3
    have hpos : 0 < effectiveRequiredYears job := by
      unfold effectiveRequiredYears
      split
      · norm_num
      next hne => exact lt_of_le_of_ne hy0 (Ne.symm hne)
    have hmin : min (applicant.totalYearsExperience / effectiveRequiredYears job) 2 = 2 := by
      apply min_eq_right
      rw [le_div_iff₀ hpos]
      linarith
    have hrel : (algorithm2_SkillExperienceComposite jsExp job applicant).totalScore =
        round2 (0.30 *
            ((algorithm2_SkillExperienceComposite jsExp job applicant).skillsScore *
              jsExp (0.5 * min (applicant.totalYearsExperience / effectiveRequiredYears job) 2) /
              jsExp (0.5 * 2)) +
          0.35 * (algorithm2_SkillExperienceComposite jsExp job applicant).educationScore +
          0.35 * (algorithm2_SkillExperienceComposite jsExp job applicant).eligibilityScore) := rfl
    rw [hrel, hmin, h1, h2, h3]
    rw [mul_div_assoc]
    have h052 : (0.5 : ℚ) * 2 = 1 := by norm_num
    rw [h052, div_self hexp, mul_one]
    decide
  · intro h1 h2 h3 h4 hm
    have hrel : (algorithm3_EligibilityEducationTiebreaker job applicant).totalScore =
        round2 ((if eligRequired (jobEligsOf job) then
            (algorithm3_EligibilityEducationTiebreaker job applicant).eligibilityScore / 100 * 40
          else 20) +
          (algorithm3_EligibilityEducationTiebreaker job applicant).educationScore / 100 * 30 +
          min ((algorithm3_EligibilityEducationTiebreaker job applicant).experienceScore /
            100 * 20) 20 +
          min (((algorithm3_EligibilityEducationTiebreaker job applicant).matchedSkillsCount : ℚ)
            * 10) 20 * 0.10) := rfl
    have hminsk :
        min (((algorithm3_EligibilityEducationTiebreaker job applicant).matchedSkillsCount : ℚ)
          * 10) 20 = 20 := by
      apply min_eq_right
      have : (2:ℚ) ≤
          ((algorithm3_EligibilityEducationTiebreaker job applicant).matchedSkillsCount : ℚ) := by
        exact_mod_cast hm
      linarith
    by_cases hreq : eligRequired (jobEligsOf job) = true
    · rw [hrel, if_pos hreq, h1, h2, h4, hminsk]
      decide
    · exfalso
      have h50 : (algorithm3_EligibilityEducationTiebreaker job applicant).eligibilityScore = 50 := by
        simp only [algorithm3_EligibilityEducationTiebreaker]
        unfold eligScoreAlg3
        rw [if_neg hreq]
      rw [h50] at h4
      norm_num at h4

/-- Witness for `algorithm_weight_totals` at the perfect-match input
`exJob2`/`exApplicant2` (with years ratio 5 ≥ 2 and `expOne 1 = 1 ≠ 0`). -/
theorem algorithm_weight_totals_witness :
    (algorithm1_WeightedSum exJob2 exApplicant2).totalScore = 100 ∧
    (algorithm2_SkillExperienceComposite expOne exJob2 exApplicant2).totalScore = 100 ∧
    (algorithm3_EligibilityEducationTiebreaker exJob2 exApplicant2).totalScore = 92 := by
  have h := algorithm_weight_totals expOne exJob2 exApplicant2
  exact ⟨h.2.2.1 (by decide) (by decide) (by decide) (by decide),
    h.2.2.2.1 (by decide) (by decide) (by decide) (by decide) (by decide) (by decide),
    h.2.2.2.2 (by decide) (by decide) (by decide) (by decide) (by decide)⟩

/-- The strict-improvement fold of the source's best-match loop computes
the running maximum of the tier values. -/
theorem eligBestPair_fold_fst (w : Bool) (r : String) :
    ∀ (apps : List String) (b : ℚ) (s : String),
      (apps.foldl (fun acc a =>
          let v := eligTier w r a
          if v > acc.1 then (v, a) else acc) (b, s)).1 =
        apps.foldl (fun acc a => max acc (eligTier w r a)) b := by
  intro apps
  induction apps with
  | nil => intro b s; rfl
  | cons a rest ih =>
    intro b s
    simp only [List.foldl]
    by_cases hv : eligTier w r a > b
    · rw [if_pos hv, ih, max_eq_right (le_of_lt hv)]
    · rw [if_neg hv, ih, max_eq_left (le_of_not_lt hv)]

/-- The best-match value of one requirement line is the maximum tier value
over the applicant eligibilities. -/
theorem eligBestPair_fst_eq_max (w : Bool) (r : String) (apps : List String) :
    (eligBestPair w r apps).1 = (apps.map (eligTier w r)).foldl max 0 := by
  unfold eligBestPair
  rw [eligBestPair_fold_fst]
  rw [List.foldl_map]

/-- Algorithms 1 and 2's eligibility block equals the spec-worded shared
pattern whenever eligibility requirements apply. -/
theorem eligScoreAlg12_eq_spec (jobEligs appEligs : List String)
    (hreq : eligRequired jobEligs = true) :
    (eligScoreAlg12 jobEligs appEligs).1 = specEligScore jobEligs appEligs := by
  unfold eligScoreAlg12 specEligScore specEligBestValue eligProportional
  rw [if_pos hreq]
  have hmap : jobEligs.map (fun r => (eligBestPair true r appEligs).1) =
      jobEligs.map (fun r => (appEligs.map (eligTier true r)).foldl max 0) := by
    apply List.map_congr_left
    intro r _
    exact eligBestPair_fst_eq_max true r appEligs
  dsimp only
  rw [hmap]

/-- Algorithm 3's eligibility block equals the reduced pattern (no token
tier, no bonus, no floor/cap) whenever eligibility requirements apply. -/
theorem eligScoreAlg3_eq_reduced (jobEligs appEligs : List String)
    (hreq : eligRequired jobEligs = true) :
    (eligScoreAlg3 jobEligs appEligs).1 = specEligScoreReduced jobEligs appEligs := by
  unfold eligScoreAlg3 specEligScoreReduced eligProportional
  rw [if_pos hreq]
  have hmap : jobEligs.map (fun r => (eligBestPair false r appEligs).1) =
      jobEligs.map (fun r => (appEligs.map (eligTier false r)).foldl max 0) := by
    apply List.map_congr_left
    intro r _
    exact eligBestPair_fst_eq_max false r appEligs
  dsimp only
  rw [hmap]

/-- Claim C3 counterexample: on `exJob3`/`exApplicant3` the shared pattern
yields 100 (base 90 plus surplus bonus 15, capped at 100) — Algorithms 1
and 2 return it — but Algorithm 3 returns the bare proportional 90: it
applies neither the token-overlap tier nor the surplus bonus, floor or
cap. -/
theorem elig_pattern_not_shared_by_alg3 : ¬ eligPatternAllThree := by
  intro h
  have h3 := (h exJob3 exApplicant3 (by decide)).2.2
  have hL : (algorithm3_EligibilityEducationTiebreaker exJob3 exApplicant3).eligibilityScore =
      90 := by decide
  have hR : specEligScore (jobEligsOf exJob3) (appEligsOf exApplicant3) = 100 := by decide
  rw [hL, hR] at h3
  norm_num at h3

/-- Claim C3 as amended: for every job with genuine eligibility
requirements, Algorithms 1 and 2 compute the eligibility score by the
shared pattern (tiers with token-overlap, proportional score, surplus
bonus, cap 100, floor 40 / cap 25); Algorithm 3 instead computes the
reduced pattern with only the `≥ 70` and `[40, 70)` tiers and no bonus,
floor or cap. -/
theorem elig_pattern_algs12_alg3_reduced (jsExp : ℚ → ℚ) (job : JobRequirements)
    (applicant : ApplicantData) (hreq : eligRequired (jobEligsOf job) = true) :
    (algorithm1_WeightedSum job applicant).eligibilityScore =
        specEligScore (jobEligsOf job) (appEligsOf applicant) ∧
      (algorithm2_SkillExperienceComposite jsExp job applicant).eligibilityScore =
        specEligScore (jobEligsOf job) (appEligsOf applicant) ∧
      (algorithm3_EligibilityEducationTiebreaker job applicant).eligibilityScore =
        specEligScoreReduced (jobEligsOf job) (appEligsOf applicant) := by
  refine ⟨?_, ?_, ?_⟩
  · simp only [algorithm1_WeightedSum]
    exact eligScoreAlg12_eq_spec _ _ hreq
  · simp only [algorithm2_SkillExperienceComposite]
    exact eligScoreAlg12_eq_spec _ _ hreq
  · simp only [algorithm3_EligibilityEducationTiebreaker]
    exact eligScoreAlg3_eq_reduced _ _ hreq

/-- Witness for `elig_pattern_algs12_alg3_reduced` at
`exJob3`/`exApplicant3`. -/
theorem elig_pattern_algs12_alg3_reduced_witness :
    (algorithm1_WeightedSum exJob3 exApplicant3).eligibilityScore =
        specEligScore (jobEligsOf exJob3) (appEligsOf exApplicant3) ∧
      (algorithm2_SkillExperienceComposite expOne exJob3 exApplicant3).eligibilityScore =
        specEligScore (jobEligsOf exJob3) (appEligsOf exApplicant3) ∧
      (algorithm3_EligibilityEducationTiebreaker exJob3 exApplicant3).eligibilityScore =
        specEligScoreReduced (jobEligsOf exJob3) (appEligsOf exApplicant3) :=
  elig_pattern_algs12_alg3_reduced expOne exJob3 exApplicant3 (by decide)

/-- Claim C10: `compareApplicants` returns `tie` exactly when the two
ensemble totals differ (in absolute value) by less than one point,
`applicant1` exactly when applicant 1's total is at least one point
higher, `applicant2` exactly when it is at least one point lower, and the
returned score records are the ensemble scores of the two applicants. -/
theorem compare_applicants_winner_spec (jsExp : ℚ → ℚ) (job : JobRequirements)
    (applicant1 applicant2 : ApplicantData) :
    ((compareApplicants jsExp job applicant1 applicant2).winner = "tie" ↔
      |(ensembleScore jsExp job applicant1).totalScore -
        (ensembleScore jsExp job applicant2).totalScore| < 1) ∧
    ((compareApplicants jsExp job applicant1 applicant2).winner = "applicant1" ↔
      1 ≤ (ensembleScore jsExp job applicant1).totalScore -
        (ensembleScore jsExp job applicant2).totalScore) ∧
    ((compareApplicants jsExp job applicant1 applicant2).winner = "applicant2" ↔
      (ensembleScore jsExp job applicant1).totalScore -
        (ensembleScore jsExp job applicant2).totalScore ≤ -1) ∧
    (compareApplicants jsExp job applicant1 applicant2).applicant1Score =
      ensembleScore jsExp job applicant1 ∧
    (compareApplicants jsExp job applicant1 applicant2).applicant2Score =
      ensembleScore jsExp job applicant2 := by
  set d : ℚ := (ensembleScore jsExp job applicant1).totalScore -
    (ensembleScore jsExp job applicant2).totalScore with hd
  simp only [compareApplicants]
  rw [← hd]
  refine ⟨?_, ?_, ?_, by trivial, by trivial⟩
  · by_cases h1 : |d| < 1
    · rw [if_pos h1]
      simp [h1]
    · rw [if_neg h1]
      by_cases h2 : d > 0
      · rw [if_pos h2]
        constructor
        · intro hw
          exact absurd hw (by decide)
        · intro hq
          exact absurd hq h1
      · rw [if_neg h2]
        constructor
        · intro hw
          exact absurd hw (by decide)
        · intro hq
          exact absurd hq h1
  · by_cases h1 : |d| < 1
    · rw [if_pos h1]
      have hup : d < 1 := lt_of_le_of_lt (le_abs_self d) h1
      constructor
      · intro hw
        exact absurd hw (by decide)
      · intro hq
        linarith
    · rw [if_neg h1]
      have habs : 1 ≤ |d| := not_lt.mp h1
      by_cases h2 : d > 0
      · rw [if_pos h2]
        have : |d| = d := abs_of_pos h2
        constructor
        · intro _
          linarith [habs, this]
        · intro _
          rfl
      · rw [if_neg h2]
        have hneg : d ≤ 0 := not_lt.mp h2
        have : |d| = -d := abs_of_nonpos hneg
        constructor
        · intro hw
          exact absurd hw (by decide)
        · intro hq
          linarith [habs, this]
  · by_cases h1 : |d| < 1
    · rw [if_pos h1]
      have hlo : -1 < d := neg_lt_of_abs_lt h1
      constructor
      · intro hw
        exact absurd hw (by decide)
      · intro hq
        linarith
    · rw [if_neg h1]
      have habs : 1 ≤ |d| := not_lt.mp h1
      by_cases h2 : d > 0
      · rw [if_pos h2]
        constructor
        · intro hw
          exact absurd hw (by decide)
        · intro hq
          linarith
      · rw [if_neg h2]
        have hneg : d ≤ 0 := not_lt.mp h2
        have habs2 : |d| = -d := abs_of_nonpos hneg
        constructor
        · intro _
          linarith [habs, habs2]
        · intro _
          rfl

/-- Claim C8: `normalizeDegreeValue` and `normalizeEligibilityValue` are
total (never throw) and return the no-key/`fallback`/confidence-0 result
both on blank input and whenever the external classification call (which
is only reached past the dictionary and candidate checks) fails. -/
theorem normalize_value_fallback_paths :
    (∀ (st : DictState) (gemini : GeminiOracle) (raw : String),
      jsTrim raw = "" →
      normalizeDegreeValue st gemini raw =
        { canonicalKey := none, method := .fallback, confidence := 0, raw := raw }) ∧
    (∀ (st : DictState) (gemini : GeminiOracle) (raw : String),
      lookupAlias st.degreeAliasIndex (normalizeKey raw) = none →
      getTopDegreeCandidates st raw 20 ≠ [] →
      gemini (buildDegreeClassificationPrompt raw (getTopDegreeCandidates st raw 20)) = .error () →
      normalizeDegreeValue st gemini raw =
        { canonicalKey := none, method := .fallback, confidence := 0, raw := raw }) ∧
    (∀ (st : DictState) (gemini : GeminiOracle) (raw : String),
      jsTrim raw = "" →
      normalizeEligibilityValue st gemini raw =
        { canonicalKey := none, method := .fallback, confidence := 0, raw := raw }) ∧
    (∀ (st : DictState) (gemini : GeminiOracle) (raw : String),
      lookupAlias st.eligibilityAliasIndex (normalizeKey raw) = none →
      getTopEligibilityCandidates st raw 20 ≠ [] →
      gemini (buildEligibilityClassificationPrompt raw (getTopEligibilityCandidates st raw 20)) = .error () →
      normalizeEligibilityValue st gemini raw =
        { canonicalKey := none, method := .fallback, confidence := 0, raw := raw }) := by
  refine ⟨?_, ?_, ?_, ?_⟩
  · intro st gemini raw hblank
    unfold normalizeDegreeValue
    rw [if_pos (by simp [hblank])]
  · intro st gemini raw halias hcand herr
    unfold normalizeDegreeValue
    split
    · rfl
    · rw [halias]
      have hc : (getTopDegreeCandidates st raw 20).isEmpty = false := by
        simpa using hcand
      simp only [hc, Bool.false_eq_true, if_false]
      rw [herr]
  · intro st gemini raw hblank
    unfold normalizeEligibilityValue
    rw [if_pos (by simp [hblank])]
  · intro st gemini raw halias hcand herr
    unfold normalizeEligibilityValue
    split
    · rfl
    · rw [halias]
      have hc : (getTopEligibilityCandidates st raw 20).isEmpty = false := by
        simpa using hcand
      simp only [hc, Bool.false_eq_true, if_false]
      rw [herr]

/-- Witness for `normalize_value_fallback_paths`: the blank input `" "`
and, with the one-entry dictionary `exDictSmall` (no aliases, positive
token overlap for `"abc"`) and the always-failing oracle, the failing
classification call. -/
theorem normalize_value_fallback_paths_witness :
    normalizeDegreeValue exDictEmpty failOracle " " =
      { canonicalKey := none, method := .fallback, confidence := 0, raw := " " } ∧
    normalizeDegreeValue exDictSmall failOracle "abc" =
      { canonicalKey := none, method := .fallback, confidence := 0, raw := "abc" } ∧
    normalizeEligibilityValue exDictEmpty failOracle " " =
      { canonicalKey := none, method := .fallback, confidence := 0, raw := " " } ∧
    normalizeEligibilityValue exDictSmall failOracle "abc" =
      { canonicalKey := none, method := .fallback, confidence := 0, raw := "abc" } := by
  have h := normalize_value_fallback_paths
  exact ⟨h.1 exDictEmpty failOracle " " (by decide),
    h.2.1 exDictSmall failOracle "abc" (by decide) (by decide) rfl,
    h.2.2.1 exDictEmpty failOracle " " (by decide),
    h.2.2.2 exDictSmall failOracle "abc" (by decide) (by decide) rfl⟩

/-- Sign of a difference of distinct rationals: `.lt` iff the first is
smaller, `.gt` otherwise. -/
theorem qSign_sub_of_ne (x y : ℚ) (h : x ≠ y) :
    qSign (x - y) = if x < y then Ordering.lt else Ordering.gt := by
  unfold qSign
  by_cases hlt : x - y < 0
  · rw [if_pos hlt, if_pos (by linarith)]
  · rw [if_neg hlt, if_neg (fun h0 => h (by linarith)),
      if_neg (fun hxy => hlt (by linarith))]

/-- The numeric JS comparator agrees, through its sign, with the
specification's ordering cascade on every pair of entries. -/
theorem qSign_applicantCmp_eq_spec (a b : SortEntry) :
    qSign (applicantCmp a b) = cmpCascadeSpec a b := by
  unfold applicantCmp cmpCascadeSpec
  by_cases c1 : |b.totalScore - a.totalScore| ≥ 0.01
  · rw [if_pos c1, if_neg (show ¬ |a.totalScore - b.totalScore| < 0.01 by
      rw [abs_sub_comm]; exact not_lt.mpr c1)]
    exact qSign_sub_of_ne _ _
      (fun he => by rw [he, sub_self, abs_zero] at c1; norm_num at c1)
  · rw [if_neg c1, if_pos (show |a.totalScore - b.totalScore| < 0.01 by
      rw [abs_sub_comm]; exact not_le.mp c1)]
    by_cases c2 : |b.eligibilityScore - a.eligibilityScore| ≥ 0.01
    · rw [if_pos c2, if_neg (show ¬ |a.eligibilityScore - b.eligibilityScore| < 0.01 by
        rw [abs_sub_comm]; exact not_lt.mpr c2)]
      exact qSign_sub_of_ne _ _
        (fun he => by rw [he, sub_self, abs_zero] at c2; norm_num at c2)
    · rw [if_neg c2, if_pos (show |a.eligibilityScore - b.eligibilityScore| < 0.01 by
        rw [abs_sub_comm]; exact not_le.mp c2)]
      by_cases c3 : |b.educationScore - a.educationScore| ≥ 0.01
      · rw [if_pos c3, if_neg (show ¬ |a.educationScore - b.educationScore| < 0.01 by
          rw [abs_sub_comm]; exact not_lt.mpr c3)]
        exact qSign_sub_of_ne _ _
          (fun he => by rw [he, sub_self, abs_zero] at c3; norm_num at c3)
      · rw [if_neg c3, if_pos (show |a.educationScore - b.educationScore| < 0.01 by
          rw [abs_sub_comm]; exact not_le.mp c3)]
        by_cases c4 : |b.experienceScore - a.experienceScore| ≥ 0.01
        · rw [if_pos c4, if_neg (show ¬ |a.experienceScore - b.experienceScore| < 0.01 by
            rw [abs_sub_comm]; exact not_lt.mpr c4)]
          exact qSign_sub_of_ne _ _
            (fun he => by rw [he, sub_self, abs_zero] at c4; norm_num at c4)
        · rw [if_neg c4, if_pos (show |a.experienceScore - b.experienceScore| < 0.01 by
            rw [abs_sub_comm]; exact not_le.mp c4)]
          by_cases c5 : |b.skillsScore - a.skillsScore| ≥ 0.01
          · rw [if_pos c5, if_neg (show ¬ |a.skillsScore - b.skillsScore| < 0.01 by
              rw [abs_sub_comm]; exact not_lt.mpr c5)]
            exact qSign_sub_of_ne _ _
              (fun he => by rw [he, sub_self, abs_zero] at c5; norm_num at c5)
          · rw [if_neg c5, if_pos (show |a.skillsScore - b.skillsScore| < 0.01 by
              rw [abs_sub_comm]; exact not_le.mp c5)]
            by_cases c6 : b.totalYearsExperience ≠ a.totalYearsExperience
            · rw [if_pos c6, if_neg (fun he => c6 he.symm)]
              exact qSign_sub_of_ne _ _ c6
            · rw [if_neg c6, if_pos (not_ne_iff.mp c6).symm]
              by_cases c7 : b.skills.length ≠ a.skills.length
              · rw [if_pos c7, if_neg (fun he => c7 he.symm)]
                rw [qSign_sub_of_ne ((b.skills.length : ℚ)) ((a.skills.length : ℚ))
                  (fun he => c7 (by exact_mod_cast he))]
                simp only [Nat.cast_lt]
              · rw [if_neg c7, if_pos (not_ne_iff.mp c7).symm]
                unfold qSign
                norm_num

/-- A zero comparator value is symmetric: if the JS comparator ties `x`
against `y`, it also ties `y` against `x`. -/
theorem applicantCmp_zero_symm (x y : SortEntry) (h : applicantCmp x y = 0) :
    applicantCmp y x = 0 := by
  unfold applicantCmp at h ⊢
  split_ifs at h with c1 c2 c3 c4 c5 c6 c7
  · rw [h, abs_zero] at c1; norm_num at c1
  · rw [h, abs_zero] at c2; norm_num at c2
  · rw [h, abs_zero] at c3; norm_num at c3
  · rw [h, abs_zero] at c4; norm_num at c4
  · rw [h, abs_zero] at c5; norm_num at c5
  · exact absurd (sub_eq_zero.mp h) c6
  · exact absurd (by exact_mod_cast sub_eq_zero.mp h) c7
  · rw [if_neg (show ¬ |x.totalScore - y.totalScore| ≥ 0.01 by
        rw [abs_sub_comm]; exact c1),
      if_neg (show ¬ |x.eligibilityScore - y.eligibilityScore| ≥ 0.01 by
        rw [abs_sub_comm]; exact c2),
      if_neg (show ¬ |x.educationScore - y.educationScore| ≥ 0.01 by
        rw [abs_sub_comm]; exact c3),
      if_neg (show ¬ |x.experienceScore - y.experienceScore| ≥ 0.01 by
        rw [abs_sub_comm]; exact c4),
      if_neg (show ¬ |x.skillsScore - y.skillsScore| ≥ 0.01 by
        rw [abs_sub_comm]; exact c5),
      if_neg (fun he => c6 he.symm), if_neg (fun he => c7 he.symm)]

/-- The positions `1..N` produced by enumerating from `n` and adding one. -/
theorem enumFrom_rank_positions {α : Type} :
    ∀ (n : ℕ) (l : List α),
      (((List.enumFrom n l).map (fun p => (p.2, p.1 + 1))).map Prod.snd) =
        List.range' (n + 1) l.length
  | _, [] => rfl
  | n, a :: l => by
    simp only [List.enumFrom, List.map, List.length, List.range']
    exact congrArg (List.cons (n + 1)) (enumFrom_rank_positions (n + 1) l)

/-- Claim C7: the deterministic sort of `rankApplicantsForJob` orders
applicants by the specified descending cascade — totalScore, then (when two
values differ by less than 0.01) eligibilityScore, educationScore,
experienceScore, skillsScore, raw totalYearsExperience, raw skill-list
length, and finally the original input order (comparator ties keep input
order); in particular, two applicants identical in all five scores with 5
vs 3 raw years sort with the 5-year applicant first from either input
order; and ranks are assigned densely as `1..N` by sorted position. -/
theorem deterministic_sort_cascade_and_ranks (a b : SortEntry) (l : List SortEntry)
    (h1 : a.totalScore = b.totalScore) (h2 : a.eligibilityScore = b.eligibilityScore)
    (h3 : a.educationScore = b.educationScore) (h4 : a.experienceScore = b.experienceScore)
    (h5 : a.skillsScore = b.skillsScore) (hA : a.totalYearsExperience = 5)
    (hB : b.totalYearsExperience = 3) :
    (∀ x y : SortEntry, qSign (applicantCmp x y) = cmpCascadeSpec x y) ∧
    (∀ x y : SortEntry, applicantCmp x y = 0 → sortApplicants [x, y] = [x, y]) ∧
    sortApplicants [a, b] = [a, b] ∧ sortApplicants [b, a] = [a, b] ∧
    (assignRanks l).map Prod.snd = List.range' 1 l.length := by
  have hab : applicantCmp a b = -2 := by
    unfold applicantCmp
    rw [h1, h2, h3, h4, h5, hA, hB]
    norm_num
  have hba : applicantCmp b a = 2 := by
    unfold applicantCmp
    rw [h1, h2, h3, h4, h5, hA, hB]
    norm_num
  refine ⟨qSign_applicantCmp_eq_spec, ?_, ?_, ?_, ?_⟩
  · intro x y hxy
    have hyx := applicantCmp_zero_symm x y hxy
    unfold sortApplicants stableSortByCmp
    simp only [List.foldl, insertByCmp, hyx]
    norm_num
  · unfold sortApplicants stableSortByCmp
    simp only [List.foldl, insertByCmp, hba]
    norm_num
  · unfold sortApplicants stableSortByCmp
    simp only [List.foldl, insertByCmp, hab]
    norm_num
  · unfold assignRanks
    have h := enumFrom_rank_positions 0 l
    simpa [List.enum] using h

/-- Witness for `deterministic_sort_cascade_and_ranks` at the concrete pair
`exEntryA` (5 raw years) / `exEntryB` (3 raw years): both input orders sort
to `[exEntryA, exEntryB]` and the assigned rank positions are `[1, 2]`. -/
theorem deterministic_sort_cascade_and_ranks_witness :
    sortApplicants [exEntryA, exEntryB] = [exEntryA, exEntryB] ∧
    sortApplicants [exEntryB, exEntryA] = [exEntryA, exEntryB] ∧
    (assignRanks [exEntryA, exEntryB]).map Prod.snd = List.range' 1 2 := by
  obtain ⟨-, -, hs1, hs2, hr⟩ :=
    deterministic_sort_cascade_and_ranks exEntryA exEntryB [exEntryA, exEntryB]
      rfl rfl rfl rfl rfl rfl rfl
  exact ⟨hs1, hs2, hr⟩
